import Mathlib

/-!
# api-proxy: a shallow embedding of `main.go`

The request pipeline of the proxy (`handleChatCompletions`), its two response
relays (`handleStreamResponse`, `handleNormalResponse`), the authenticator
(`validateAuthorization`), the model redirector (`getRedirectModel`) and the
configuration loader (`loadConfig`) are translated into pure functions over an
explicit global state `Globals`.

Conventions of the embedding:

* a Go `string` is a Lean `String`; a Go `[]byte` is a `List Char`
  (`Bytes`), every element standing for one byte;
* a Go `map[string]V` is an association list `GoMap V`, read with the
  two-valued index form `v, ok := m[k]` (`GoMap.get?`);
* package-level variables (`activeRequests`, `config`, `configLock`,
  `requestMetrics`) are the fields of `Globals`, threaded through every
  function that touches them;
* the Go standard library the program calls into (JSON codec, file system,
  HTTP client) is the record `Env` of the outcomes of those calls;
  `http.ResponseWriter`, `http.Header`, `http.Error`, `io.ReadAll` and
  `strings.HasPrefix`/`TrimPrefix` are modelled after their documented
  behaviour; the writer is the one of the `net/http` server: a `Write` fails
  with a status that allows no body, past the declared `Content-Length`, or
  when the caller has gone away;
* one request is followed in isolation (no interleaving with other requests
  or with the reload goroutine); log output is not part of the state.
-/

namespace ApiProxy

/-! ## Go strings, byte slices and maps -/

/-- A Go byte slice. -/
abbrev Bytes := List Char

/-- Go `strings.HasPrefix(s, prefix)`:
`len(s) >= len(prefix) && s[:len(prefix)] == prefix`. -/
def HasPrefix (s pre : String) : Bool :=
  decide (s.data.length ≥ pre.data.length) && decide (s.data.take pre.data.length = pre.data)

/-- Go `strings.TrimPrefix(s, prefix)`: `s[len(prefix):]` when `s` has the
prefix, `s` itself otherwise. -/
def TrimPrefix (s pre : String) : String :=
  if HasPrefix s pre then String.mk (s.data.drop pre.data.length) else s

/-- A Go `map[string]V`. The first binding of a key is the one in force. -/
abbrev GoMap (V : Type) := List (String × V)

/-- The index expression `v, ok := m[k]`: `some v` when `ok`, `none` otherwise. -/
def GoMap.get? {V : Type} (m : GoMap V) (k : String) : Option V :=
  match m with
  | [] => none
  | (k', v) :: rest => if k = k' then some v else GoMap.get? rest k

/-- The assignment `m[k] = v`. -/
def GoMap.set {V : Type} (m : GoMap V) (k : String) (v : V) : GoMap V :=
  (k, v) :: m.filter (fun p => decide (p.1 ≠ k))

/-- The keys of a map. -/
def GoMap.keys {V : Type} (m : GoMap V) : List String := m.map Prod.fst

/-! ## Data model -/

/-- The anonymous struct `Config.API`. -/
structure APIConfig where
  URL : String
  Key : String
deriving DecidableEq, Repr

/-- The struct `Config`. -/
structure Config where
  ModelRedirects : GoMap String
  API : APIConfig
  AllowedKeys : List String
deriving DecidableEq, Repr

/-- The struct `ChatRequest`; `Messages` is a `json.RawMessage`. -/
structure ChatRequest where
  Model : String
  Stream : Bool
  Messages : Bytes
deriving DecidableEq, Repr

/-- A `sync.RWMutex`: the number of read locks held and whether the write
lock is held. -/
structure RWMutex where
  readers : Nat
  writer : Bool
deriving DecidableEq, Repr

def RWMutex.RLock (l : RWMutex) : RWMutex := { l with readers := l.readers + 1 }
def RWMutex.RUnlock (l : RWMutex) : RWMutex := { l with readers := l.readers - 1 }
def RWMutex.Lock (l : RWMutex) : RWMutex := { l with writer := true }
def RWMutex.Unlock (l : RWMutex) : RWMutex := { l with writer := false }

/-- The struct `requestMetrics` (its embedded lock is taken and released
around a single increment and is left out). -/
structure Metrics where
  totalRequests : Nat
  errorCount : Nat
deriving DecidableEq, Repr

/-- The package-level variables of `main.go`. -/
structure Globals where
  activeRequests : Int
  config : Config
  configLock : RWMutex
  requestMetrics : Metrics
deriving DecidableEq, Repr

/-- An `http.Header`: `map[string][]string`. -/
abbrev Header := GoMap (List String)

/-- Go `Header.Get(key)`: the first value associated with the key, `""` when
there is none. (Keys are kept in canonical form throughout.) -/
def Header.Get (h : Header) (key : String) : String :=
  match GoMap.get? h key with
  | some (v :: _) => v
  | _ => ""

/-- Go `Header.Set(key, value)`. -/
def Header.Set (h : Header) (key value : String) : Header :=
  GoMap.set h key [value]

/-- Go `Header.Add(key, value)`: append to the values of the key. -/
def Header.Add (h : Header) (key value : String) : Header :=
  GoMap.set h key ((GoMap.get? h key).getD [] ++ [value])

/-- Go `Header.Del(key)`. -/
def Header.Del (h : Header) (key : String) : Header :=
  h.filter (fun p => decide (p.1 ≠ key))

/-- The parts of an inbound `*http.Request` the handler reads. -/
structure Request where
  Method : String
  Header : Header
  Body : Bytes
deriving DecidableEq, Repr

/-! ## Authenticator and model redirector -/

/-- The function `validateAuthorization` (main.go 182-198). -/
def validateAuthorization (g : Globals) (r : Request) : Bool × Globals :=
  let auth := r.Header.Get "Authorization"
  if !HasPrefix auth "Bearer " then
    (false, g)
  else
    let key := TrimPrefix auth "Bearer "
    let g := { g with configLock := g.configLock.RLock }
    -- `for _, allowedKey := range config.AllowedKeys { if key == allowedKey { return true } }`
    let found := g.config.AllowedKeys.any (fun allowedKey => decide (key = allowedKey))
    -- deferred `configLock.RUnlock()`
    (found, { g with configLock := g.configLock.RUnlock })

/-- The function `getRedirectModel` (main.go 200-209). -/
def getRedirectModel (g : Globals) (originalModel : String) : String × Globals :=
  let g := { g with configLock := g.configLock.RLock }
  match GoMap.get? g.config.ModelRedirects originalModel with
  | some redirectModel => (redirectModel, { g with configLock := g.configLock.RUnlock })
  | none => (originalModel, { g with configLock := g.configLock.RUnlock })

/-! ## The standard library at the boundary -/

/-- The error a `Read` can return besides `nil`: `io.EOF` or anything else. -/
inductive IOError where
  | EOF
  | other (msg : String)
deriving DecidableEq, Repr

/-- An upstream response body, as the outcomes of the successive `Read` calls
made on it: the bytes a call delivers and the error it returns (`none` is
`nil`). Once the list is used up, `Read` returns `0, io.EOF`. -/
abbrev Body := List (Bytes × Option IOError)

/-- The result of one `Read(p)`: the count `n`, the error, and `p` after the call. -/
structure ReadResult where
  n : Nat
  err : Option IOError
  p : Bytes
  rest : Body

/-- One call `body.Read(p)`: at most `len(p)` bytes are copied to the front
of `p`; the rest of `p` keeps its old content. -/
def Body.Read (body : Body) (p : Bytes) : ReadResult :=
  match body with
  | [] => { n := 0, err := some IOError.EOF, p := p, rest := [] }
  | (data, err) :: rest =>
    let n := min data.length p.length
    { n := n, err := err, p := data.take n ++ p.drop n, rest := rest }

/-- Go `io.ReadAll`: reads until an error or EOF and returns the data read;
EOF is reported as a `nil` error. -/
def ReadAll : Body → Bytes × Option IOError
  | [] => ([], none)
  | (data, none) :: rest => (data ++ (ReadAll rest).1, (ReadAll rest).2)
  | (data, some IOError.EOF) :: _ => (data, none)
  | (data, some (IOError.other msg)) :: _ => (data, some (IOError.other msg))

/-- A value stored in a Go `interface{}` by `json.Unmarshal`. A number is
kept as its literal. -/
inductive JSONValue where
  | null
  | bool (b : Bool)
  | number (literal : String)
  | string (s : String)
  | array (items : List JSONValue)
  | object (fields : List (String × JSONValue))

/-- The outbound `*http.Request` built for the upstream. -/
structure UpstreamRequest where
  Method : String
  URL : String
  Header : Header
  Body : Bytes
deriving DecidableEq, Repr

/-- The upstream `*http.Response`. -/
structure Response where
  StatusCode : Nat
  Header : Header
  Body : Body
deriving DecidableEq, Repr

/-- The outcomes of the library and operating-system calls the program makes. -/
structure Env where
  /-- Go `os.Getenv`. -/
  Getenv : String → String
  /-- Go `os.ReadFile`. -/
  ReadFile : String → Except String Bytes
  /-- Go `json.Unmarshal(data, &newConfig)` on a zero `Config`. -/
  UnmarshalConfig : Bytes → Except String Config
  /-- Go `json.NewDecoder(r.Body).Decode(&chatReq)` on a zero `ChatRequest`. -/
  DecodeChatRequest : Bytes → Except String ChatRequest
  /-- Go `json.Marshal(chatReq)`. -/
  MarshalChatRequest : ChatRequest → Except String Bytes
  /-- Whether `http.NewRequest` accepts the URL. -/
  validURL : String → Bool
  /-- Go `httpClient.Do(req)`. -/
  Do : UpstreamRequest → Except String Response
  /-- Go `json.Unmarshal(body, &jsonResponse)` into a `map[string]interface{}`. -/
  UnmarshalObject : Bytes → Except String (GoMap JSONValue)
  /-- Go `json.Marshal(jsonResponse)`. -/
  MarshalObject : GoMap JSONValue → Except String Bytes
  /-- The buffer `bufferPool.Get()` hands out. -/
  pooledBuffer : Bytes

/-- What `bufferPool.New` allocates: `make([]byte, 32*1024)`. -/
def bufferPoolNew : Bytes := List.replicate (32 * 1024) (Char.ofNat 0)

/-- The value of a string of decimal digits read after `acc`; `none` when a
character is not a digit. -/
def parseDigits (acc : Nat) : List Char → Option Nat
  | [] => some acc
  | c :: cs => if c.isDigit then parseDigits (acc * 10 + (c.toNat - 48)) cs else none

/-- The value of a non-empty string of decimal digits that fits an `int64`. -/
def parseMagnitude (ds : List Char) : Option Nat :=
  if ds = [] then none
  else
    match parseDigits 0 ds with
    | some v => if v < 9223372036854775808 then some v else none
    | none => none

/-- The length a `Content-Length` value declares to the server:
`strconv.ParseInt(cl, 10, 64)` without error and with a result `v >= 0`. -/
def parseContentLength (cl : String) : Option Nat :=
  match cl.data with
  | '+' :: ds => parseMagnitude ds
  | '-' :: ds =>
    match parseMagnitude ds with
    | some 0 => some 0
    | _ => none
  | ds => parseMagnitude ds

/-- An `http.ResponseWriter` of the `net/http` server, as a recorder of what
the handler does to it. -/
structure ResponseWriter where
  /-- The header map `w.Header()`. -/
  header : Header
  /-- The status code sent, once `WriteHeader` has run (explicitly or not). -/
  code : Option Nat
  /-- The body length declared by the `Content-Length` header when the status
  was sent; `none` is the server's `-1`. -/
  contentLength : Option Nat
  /-- The number of body bytes handed to `Write` so far, failed writes included. -/
  bytesWritten : Nat
  /-- The payload of every `Write` call so far, in call order, with whether
  the call succeeded. -/
  writes : List (Bytes × Bool)
  /-- The number of `Flush` calls so far. -/
  flushes : Nat
  /-- Whether `w.(http.Flusher)` succeeds. -/
  flusher : Bool
  /-- Whether the k-th `Write` call (from 0) succeeds; it fails when the
  caller has gone away. -/
  connected : Nat → Bool

/-- The writer a handler is started with. -/
def ResponseWriter.fresh (flusher : Bool) (connected : Nat → Bool) : ResponseWriter :=
  { header := [], code := none, contentLength := none, bytesWritten := 0, writes := [],
    flushes := 0, flusher := flusher, connected := connected }

/-- Go `w.WriteHeader(code)`: only the first call sends a status. It fixes the
declared body length from the `Content-Length` header set by then; a value
that does not parse is removed from the header. -/
def ResponseWriter.WriteHeader (w : ResponseWriter) (code : Nat) : ResponseWriter :=
  match w.code with
  | some _ => w
  | none =>
    if w.header.Get "Content-Length" = "" then
      { w with code := some code, contentLength := none }
    else
      match parseContentLength (w.header.Get "Content-Length") with
      | some v => { w with code := some code, contentLength := some v }
      | none =>
        { w with code := some code, contentLength := none,
                 header := w.header.Del "Content-Length" }

/-- Go `bodyAllowedForStatus`: no body with a 1xx, 204 or 304 status. -/
def bodyAllowedForStatus (status : Nat) : Bool :=
  if 100 ≤ status ∧ status ≤ 199 then false
  else if status = 204 then false
  else if status = 304 then false
  else true

/-- Whether `w.Write(p)` returns a `nil` error: an empty `p` always does; with
a status that allows no body the write gets `http.ErrBodyNotAllowed`; a `p`
that takes the bytes written past the declared `Content-Length` gets
`http.ErrContentLength` and nothing of it is sent; otherwise the write
succeeds when the caller is still there. -/
def ResponseWriter.accepts (w : ResponseWriter) (p : Bytes) : Bool :=
  let w := w.WriteHeader 200
  if p = [] then true
  else if !bodyAllowedForStatus (w.code.getD 200) then false
  else
    match w.contentLength with
    | some declared =>
      if w.bytesWritten + p.length > declared then false
      else w.connected w.writes.length
    | none => w.connected w.writes.length

/-- Go `w.Write(p)`: sends status 200 first when no status was sent yet, counts
the bytes of `p` when the status allows a body, and records the call with its
outcome. -/
def ResponseWriter.Write (w : ResponseWriter) (p : Bytes) : ResponseWriter :=
  let ok := w.accepts p
  let w := w.WriteHeader 200
  if bodyAllowedForStatus (w.code.getD 200) then
    { w with bytesWritten := w.bytesWritten + p.length, writes := w.writes ++ [(p, ok)] }
  else
    { w with writes := w.writes ++ [(p, ok)] }

/-- The body length limit in force for the writes to `w`: the one fixed when
the status was sent, or the one the header declares now if no status was
sent yet. -/
def ResponseWriter.declared (w : ResponseWriter) : Option Nat :=
  match w.code with
  | some _ => w.contentLength
  | none =>
    if w.header.Get "Content-Length" = "" then none
    else parseContentLength (w.header.Get "Content-Length")

/-- Go `flusher.Flush()`: sends status 200 first when no status was sent yet. -/
def ResponseWriter.Flush (w : ResponseWriter) : ResponseWriter :=
  let w := w.WriteHeader 200
  { w with flushes := w.flushes + 1 }

/-- The payloads handed to `Write`, in call order. -/
def ResponseWriter.written (w : ResponseWriter) : List Bytes := w.writes.map Prod.fst

/-- The bytes that reached the caller: the payloads of the successful writes. -/
def ResponseWriter.body (w : ResponseWriter) : Bytes :=
  ((w.writes.filter (fun pw => pw.2)).map Prod.fst).flatten

/-- Go `http.Error(w, error, code)`: plain-text content type, the status,
then the message followed by a newline (`fmt.Fprintln`). -/
def httpError (w : ResponseWriter) (error : String) (code : Nat) : ResponseWriter :=
  let h := (w.header.Set "Content-Type" "text/plain; charset=utf-8").Set
    "X-Content-Type-Options" "nosniff"
  ({ w with header := h }.WriteHeader code).Write (error ++ "\n").data

/-- Go `http.NewRequest(method, url, body)`. -/
def NewRequest (env : Env) (method url : String) (body : Bytes) :
    Except String UpstreamRequest :=
  if env.validURL url then
    Except.ok { Method := method, URL := url, Header := [], Body := body }
  else
    Except.error "parse error"

/-! ## Response relay -/

/-- What the streaming relay does to the upstream body and to the caller, in
the order it does it. -/
inductive Event where
  | read (n : Nat) (err : Option IOError)
  | write (p : Bytes) (ok : Bool)
  | flush
deriving DecidableEq, Repr

/-- The loop of `handleStreamResponse` (main.go 308-321):
`n, err := resp.Body.Read(buffer)`; when `n > 0`, `w.Write(buffer[:n])`
(its result is dropped) and `flusher.Flush()`; the loop ends when `err` is
`io.EOF` or any other error. Returns the writer and the events, oldest first. -/
def relayLoop (body : Body) (buffer : Bytes) (w : ResponseWriter) :
    ResponseWriter × List Event :=
  match body with
  | [] =>
    -- `Read` returns `0, io.EOF`
    (w, [Event.read 0 (some IOError.EOF)])
  | entry :: rest =>
    let rd := Body.Read (entry :: rest) buffer
    let step : ResponseWriter × List Event :=
      if rd.n > 0 then
        ((w.Write (rd.p.take rd.n)).Flush,
          [Event.write (rd.p.take rd.n) (w.accepts (rd.p.take rd.n)), Event.flush])
      else (w, [])
    match rd.err with
    | some _ => (step.1, Event.read rd.n rd.err :: step.2)
    | none =>
      let next := relayLoop rest rd.p step.1
      (next.1, Event.read rd.n rd.err :: step.2 ++ next.2)

/-- The four `w.Header().Set` calls of `handleStreamResponse` (main.go 293-296). -/
def streamHeader (h : Header) : Header :=
  (((h.Set "Content-Type" "text/event-stream").Set "Cache-Control" "no-cache").Set
    "Connection" "keep-alive").Set "Transfer-Encoding" "chunked"

/-- The function `handleStreamResponse` (main.go 292-322); `buffer` is what
`bufferPool.Get()` returned. -/
def handleStreamResponse (w : ResponseWriter) (resp : Response) (buffer : Bytes) :
    ResponseWriter × List Event :=
  let w := { w with header := streamHeader w.header }
  if !w.flusher then
    (httpError w "Streaming unsupported" 500, [])
  else
    relayLoop resp.Body buffer w

/-- The header copy of `handleNormalResponse` (main.go 346-350). -/
def copyHeader (w : ResponseWriter) (src : Header) : ResponseWriter :=
  src.foldl (fun w kv =>
    kv.2.foldl (fun w value => { w with header := w.header.Add kv.1 value }) w) w

/-- The body `handleNormalResponse` sends (main.go 333-343): for a JSON
content type, an object with a `model` key gets `originalModel` there and is
encoded again; anything else, and any decode or encode failure, leaves the
upstream bytes. -/
def rewriteModel (env : Env) (resp : Response) (originalModel : String) (body : Bytes) :
    Bytes :=
  if HasPrefix (resp.Header.Get "Content-Type") "application/json" then
    match env.UnmarshalObject body with
    | Except.ok jsonResponse =>
      match GoMap.get? jsonResponse "model" with
      | some _ =>
        match env.MarshalObject (GoMap.set jsonResponse "model" (JSONValue.string originalModel)) with
        | Except.ok modifiedBody => modifiedBody
        | Except.error _ => body
      | none => body
    | Except.error _ => body
  else body

/-- The error envelopes of the handler, as written in the source. -/
def readFailedMessage : String :=
  "\x7b\"error\":\x7b\"message\":\"Failed to read response\",\"type\":\"internal_error\"\x7d\x7d"

/-- The function `handleNormalResponse` (main.go 324-353). -/
def handleNormalResponse (env : Env) (w : ResponseWriter) (resp : Response)
    (originalModel : String) : ResponseWriter :=
  match ReadAll resp.Body with
  | (_, some _) => httpError w readFailedMessage 500
  | (body, none) =>
    let body := rewriteModel env resp originalModel body
    let w := copyHeader w resp.Header
    (w.WriteHeader resp.StatusCode).Write body

/-! ## Request pipeline -/

/-- The return statement a request leaves the pipeline by. -/
inductive Exit where
  | methodNotAllowed
  | unauthorized
  | decodeFailed
  | marshalFailed
  | newRequestFailed
  | upstreamFailed
  | streamUnsupported
  | streamed
  | readFailed
  | relayed
deriving DecidableEq, Repr

/-- What one run of the handler leaves behind. -/
structure Outcome where
  /-- The package-level variables afterwards. -/
  g : Globals
  /-- The response writer afterwards. -/
  w : ResponseWriter
  /-- The request `http.NewRequest` built, headers included. -/
  built : Option UpstreamRequest
  /-- The request handed to `httpClient.Do`. -/
  sent : Option UpstreamRequest
  /-- The events of the streaming relay. -/
  events : List Event
  /-- The return statement taken. -/
  exit : Exit

def authFailedMessage : String :=
  "\x7b\"error\":\x7b\"message\":\"Invalid or missing authorization key\",\"type\":\"authentication_error\"\x7d\x7d"

def decodeFailedMessage : String :=
  "\x7b\"error\":\x7b\"message\":\"Invalid request body\",\"type\":\"invalid_request_error\"\x7d\x7d"

def marshalFailedMessage : String :=
  "\x7b\"error\":\x7b\"message\":\"Failed to process request\",\"type\":\"internal_error\"\x7d\x7d"

def newRequestFailedMessage : String :=
  "\x7b\"error\":\x7b\"message\":\"Failed to create request\",\"type\":\"internal_error\"\x7d\x7d"

def upstreamFailedMessage : String :=
  "\x7b\"error\":\x7b\"message\":\"Upstream request failed\",\"type\":\"upstream_error\"\x7d\x7d"

/-- The 64-bit two's complement value of an integer (`int64` arithmetic). -/
def wrapInt64 (x : Int) : Int :=
  (x + 9223372036854775808) % 18446744073709551616 - 9223372036854775808

/-- Go `atomic.AddInt64(&activeRequests, delta)`. -/
def addActiveRequests (g : Globals) (delta : Int) : Globals :=
  { g with activeRequests := wrapInt64 (g.activeRequests + delta) }

/-- The upstream request of main.go 262-271: `http.NewRequest` followed by the
three `req.Header.Set` calls. -/
def upstreamRequest (env : Env) (apiURL apiKey : String) (reqBody : Bytes) :
    Except String UpstreamRequest :=
  match NewRequest env "POST" apiURL reqBody with
  | Except.error e => Except.error e
  | Except.ok req =>
    let h := ((req.Header.Set "Authorization" ("Bearer " ++ apiKey)).Set
      "Content-Type" "application/json").Set "Accept" "application/json"
    Except.ok { req with Header := h }

/-- The statement `requestMetrics.totalRequests++` under the metrics lock (main.go 218-220);
the counter is a `uint64`. -/
def countRequest (g : Globals) : Globals :=
  { g with requestMetrics :=
    { g.requestMetrics with
      totalRequests := (g.requestMetrics.totalRequests + 1) % 18446744073709551616 } }

/-- The body of `handleChatCompletions` between the counter increment and the
deferred decrement (main.go 218-289). -/
def pipeline (env : Env) (g : Globals) (w : ResponseWriter) (r : Request) : Outcome :=
  let g := countRequest g
  if r.Method ≠ "POST" then
    { g := g, w := httpError w "Method not allowed" 405, built := none, sent := none,
      events := [], exit := Exit.methodNotAllowed }
  else
    let auth := validateAuthorization g r
    let g := auth.2
    if !auth.1 then
      { g := g, w := httpError w authFailedMessage 401, built := none, sent := none,
        events := [], exit := Exit.unauthorized }
    else
      match env.DecodeChatRequest r.Body with
      | Except.error _ =>
        { g := g, w := httpError w decodeFailedMessage 400, built := none, sent := none,
          events := [], exit := Exit.decodeFailed }
      | Except.ok chatReq =>
        let originalModel := chatReq.Model
        let redirect := getRedirectModel g chatReq.Model
        let g := redirect.2
        let chatReq := { chatReq with Model := redirect.1 }
        match env.MarshalChatRequest chatReq with
        | Except.error _ =>
          { g := g, w := httpError w marshalFailedMessage 500, built := none, sent := none,
            events := [], exit := Exit.marshalFailed }
        | Except.ok reqBody =>
          -- `configLock.RLock()`, two reads, `configLock.RUnlock()`
          let g := { g with configLock := g.configLock.RLock }
          let apiURL := g.config.API.URL
          let apiKey := g.config.API.Key
          let g := { g with configLock := g.configLock.RUnlock }
          match upstreamRequest env apiURL apiKey reqBody with
          | Except.error _ =>
            { g := g, w := httpError w newRequestFailedMessage 500, built := none,
              sent := none, events := [], exit := Exit.newRequestFailed }
          | Except.ok req =>
            match env.Do req with
            | Except.error _ =>
              { g := g, w := httpError w upstreamFailedMessage 500, built := some req,
                sent := some req, events := [], exit := Exit.upstreamFailed }
            | Except.ok resp =>
              if chatReq.Stream then
                let out := handleStreamResponse w resp env.pooledBuffer
                { g := g, w := out.1, built := some req, sent := some req, events := out.2,
                  exit := if w.flusher then Exit.streamed else Exit.streamUnsupported }
              else
                { g := g, w := handleNormalResponse env w resp originalModel,
                  built := some req, sent := some req, events := [],
                  exit := if (ReadAll resp.Body).2.isSome then Exit.readFailed
                    else Exit.relayed }

/-- The function `handleChatCompletions` (main.go 211-290): the counter goes up on entry
and the deferred call takes it down when the function returns. -/
def handleChatCompletions (env : Env) (g : Globals) (w : ResponseWriter) (r : Request) :
    Outcome :=
  let g := addActiveRequests g 1
  let out := pipeline env g w r
  { out with g := addActiveRequests out.g (-1) }

/-! ## Configuration loader -/

/-- The path `loadConfig` reads (main.go 68-71): `CONFIG_PATH`, or
`config.json` when that is empty. -/
def configPath (env : Env) : String :=
  if env.Getenv "CONFIG_PATH" = "" then "config.json" else env.Getenv "CONFIG_PATH"

/-- The function `loadConfig` (main.go 67-95): the error returned (`none` is `nil`) and the
package-level variables afterwards. -/
def loadConfig (env : Env) (g : Globals) : Option String × Globals :=
  match env.ReadFile (configPath env) with
  | Except.error e => (some ("failed to read config file: " ++ e), g)
  | Except.ok data =>
    let g := { g with configLock := g.configLock.Lock }
    match env.UnmarshalConfig data with
    | Except.error e =>
      (some ("failed to parse config: " ++ e), { g with configLock := g.configLock.Unlock })
    | Except.ok newConfig =>
      if newConfig.API.URL = "" ∨ newConfig.API.Key = "" then
        (some "missing required API configuration",
          { g with configLock := g.configLock.Unlock })
      else
        let g := { g with config := newConfig }
        (none, { g with configLock := g.configLock.Unlock })

/-! ## Specification-side notions -/

/-- The error envelope of the specification:
`\x7b"error":\x7b"message":…,"type":…\x7d\x7d`. -/
def envelope (message kind : String) : String :=
  "\x7b\"error\":\x7b\"message\":\"" ++ message ++ "\",\"type\":\"" ++ kind ++ "\"\x7d\x7d"

/-- A response body is an error envelope, with or without the newline
`http.Error` appends. -/
def IsErrorEnvelope (body : Bytes) : Prop :=
  ∃ message kind : String,
    body = (envelope message kind).data ∨ body = (envelope message kind ++ "\n").data

/-- No read and no write follows a failed write in a list of relay events. -/
def stopsAfterFailedWrite : List Event → Bool
  | [] => true
  | Event.write _ false :: rest =>
    rest.all (fun e => decide (e = Event.flush))
  | _ :: rest => stopsAfterFailedWrite rest

/-- An event without the outcome of a write. -/
def Event.attempt : Event → Event
  | Event.write p _ => Event.write p true
  | e => e

/-- The error of a read event. -/
def Event.readErr : Event → Option (Option IOError)
  | Event.read _ err => some err
  | _ => none

/-- The errors the successive reads of the relay loop return: `nil` until the
first read that reports `io.EOF` or another error, which is the last. -/
def readOutcomes : Body → List (Option IOError)
  | [] => [some IOError.EOF]
  | (_, some e) :: _ => [some e]
  | (_, none) :: rest => none :: readOutcomes rest

/-- The chunks the relay loop has to pass on: the non-empty reads, up to and
including the first read that reports `io.EOF` or another error. -/
def relayedChunks : Body → List Bytes
  | [] => []
  | (data, some _) :: _ => if data = [] then [] else [data]
  | (data, none) :: rest =>
    if data = [] then relayedChunks rest else data :: relayedChunks rest

/-- The events of one read that delivers `data` with error `err` to a relay
whose writes succeed: the read, then, when it delivered bytes, the write of
exactly those bytes and the flush. -/
def readEvents (data : Bytes) (err : Option IOError) : List Event :=
  if data = [] then [Event.read 0 err]
  else [Event.read data.length err, Event.write data true, Event.flush]

/-- The events of a relay that handles every read before the next one is
made and stops after the first read that reports `io.EOF` or another
error. -/
def relayedEvents : Body → List Event
  | [] => [Event.read 0 (some IOError.EOF)]
  | (data, some e) :: _ => readEvents data (some e)
  | (data, none) :: rest => readEvents data none ++ relayedEvents rest

/-- An upstream body delivered in `chunks.length + 1` reads, the last of which
carries `last` (possibly empty) together with `io.EOF`. -/
def eofBody (chunks : List Bytes) (last : Bytes) : Body :=
  chunks.map (fun c => (c, none)) ++ [(last, some IOError.EOF)]

/-! ## The scenario of the specification

Allowed key `k1`, redirect table `gpt-a ↦ gpt-b`; the JSON codec is given on
the handful of documents the scenario exchanges. -/

def scenarioConfig : Config :=
  { ModelRedirects := [("gpt-a", "gpt-b")],
    API := { URL := "https://upstream.example/v1/chat/completions", Key := "sk-upstream" },
    AllowedKeys := ["k1"] }

def scenarioGlobals : Globals :=
  { activeRequests := 0, config := scenarioConfig,
    configLock := { readers := 0, writer := false },
    requestMetrics := { totalRequests := 0, errorCount := 0 } }

/-- The encoding `json.Marshal` gives a `ChatRequest` (model names without
characters that need escaping). -/
def scenarioMarshal (c : ChatRequest) : Bytes :=
  ("\x7b\"model\":\"" ++ c.Model ++ "\",\"stream\":" ++ (if c.Stream then "true" else "false")
    ++ ",\"messages\":" ++ String.mk c.Messages ++ "\x7d").data

def scenarioChat (stream : Bool) : ChatRequest :=
  { Model := "gpt-a", Stream := stream, Messages := "[]".data }

def scenarioUpstreamBody : Bytes := "\x7b\"model\":\"gpt-b\",\"choices\":[]\x7d".data

def scenarioConfigFile : Bytes :=
  "\x7b\"api\":\x7b\"url\":\"https://upstream.example/v1/chat/completions\",\"key\":\"sk-upstream\"\x7d\x7d".data

def scenarioEnv (upstream : Except String Response) : Env :=
  { Getenv := fun _ => "",
    ReadFile := fun path =>
      if path = "config.json" then Except.ok scenarioConfigFile else Except.error "no such file",
    UnmarshalConfig := fun data =>
      if data = scenarioConfigFile then
        Except.ok { ModelRedirects := [], API := scenarioConfig.API, AllowedKeys := [] }
      else Except.error "syntax error",
    DecodeChatRequest := fun b =>
      if b = scenarioMarshal (scenarioChat false) then Except.ok (scenarioChat false)
      else if b = scenarioMarshal (scenarioChat true) then Except.ok (scenarioChat true)
      else Except.error "syntax error",
    MarshalChatRequest := fun c => Except.ok (scenarioMarshal c),
    validURL := fun url => HasPrefix url "https://",
    Do := fun _ => upstream,
    UnmarshalObject := fun b =>
      if b = scenarioUpstreamBody then
        Except.ok [("model", JSONValue.string "gpt-b"), ("choices", JSONValue.array [])]
      else Except.error "syntax error",
    MarshalObject := fun o =>
      match o with
      | [("model", JSONValue.string m), ("choices", JSONValue.array [])] =>
        Except.ok ("\x7b\"choices\":[],\"model\":\"" ++ m ++ "\"\x7d").data
      | _ => Except.error "unsupported value",
    pooledBuffer := bufferPoolNew }

def scenarioRequest (method key : String) (stream : Bool) : Request :=
  { Method := method, Header := [("Authorization", ["Bearer " ++ key])],
    Body := scenarioMarshal (scenarioChat stream) }

/-- A second redirect table, whose caller-facing name is longer than the
upstream one. -/
def aliasGlobals : Globals :=
  { scenarioGlobals with
    config := { scenarioConfig with ModelRedirects := [("gpt-alpha", "gpt-b")] } }

def aliasChat : ChatRequest :=
  { Model := "gpt-alpha", Stream := false, Messages := "[]".data }

def aliasEnv (upstream : Except String Response) : Env :=
  { scenarioEnv upstream with
    DecodeChatRequest := fun b =>
      if b = scenarioMarshal aliasChat then Except.ok aliasChat
      else Except.error "syntax error" }

def aliasRequest : Request :=
  { Method := "POST", Header := [("Authorization", ["Bearer k1"])],
    Body := scenarioMarshal aliasChat }

/-- An upstream answer that declares the length of its body: status 200, a
JSON content type, `Content-Length: 30` and the 30 bytes of
`scenarioUpstreamBody` in one read. -/
def sizedResponse : Response :=
  { StatusCode := 200,
    Header := [("Content-Type", ["application/json"]), ("Content-Length", ["30"])],
    Body := [(scenarioUpstreamBody, some IOError.EOF)] }

/-- An upstream answer: a status, a JSON content type and the body in the
given reads. -/
def scenarioResponse (status : Nat) (body : Body) : Response :=
  { StatusCode := status, Header := [("Content-Type", ["application/json"])], Body := body }

/-! ## Lemmas on the library model -/

theorem HasPrefix_iff (s pre : String) :
    HasPrefix s pre = true ↔ ∃ t : String, s = pre ++ t := by
  unfold HasPrefix
  simp only [Bool.and_eq_true, decide_eq_true_eq]
  constructor
  · rintro ⟨_, h⟩
    refine ⟨String.mk (s.data.drop pre.data.length), ?_⟩
    apply String.ext
    have hsplit := List.take_append_drop pre.data.length s.data
    rw [h] at hsplit
    rw [String.data_append]
    exact hsplit.symm
  · rintro ⟨t, rfl⟩
    simp [String.data_append]

theorem TrimPrefix_append (pre t : String) : TrimPrefix (pre ++ t) pre = t := by
  have h : HasPrefix (pre ++ t) pre = true := (HasPrefix_iff _ _).2 ⟨t, rfl⟩
  unfold TrimPrefix
  rw [if_pos h]
  apply String.ext
  simp [String.data_append]

theorem GoMap.get?_isSome_iff {V : Type} (m : GoMap V) (k : String) :
    (∃ v, GoMap.get? m k = some v) ↔ k ∈ GoMap.keys m := by
  induction m with
  | nil => simp [GoMap.get?, GoMap.keys]
  | cons p rest ih =>
    obtain ⟨k', v'⟩ := p
    by_cases hk : k = k'
    · simp [GoMap.get?, GoMap.keys, hk]
    · have ih' : (∃ v, GoMap.get? rest k = some v) ↔ k ∈ List.map Prod.fst rest := ih
      simp [GoMap.get?, GoMap.keys, hk, ih']

theorem GoMap.get?_mem {V : Type} (m : GoMap V) (k : String) (v : V)
    (h : GoMap.get? m k = some v) : (k, v) ∈ m := by
  induction m with
  | nil => simp [GoMap.get?] at h
  | cons p rest ih =>
    obtain ⟨k', v'⟩ := p
    by_cases hk : k = k'
    · simp [GoMap.get?, hk] at h
      simp [hk, h]
    · simp [GoMap.get?, hk] at h
      exact List.mem_cons_of_mem _ (ih h)

theorem GoMap.get?_set_self {V : Type} (m : GoMap V) (k : String) (v : V) :
    GoMap.get? (GoMap.set m k v) k = some v := by
  simp [GoMap.set, GoMap.get?]

theorem GoMap.get?_set_other {V : Type} (m : GoMap V) (k k' : String) (v : V)
    (h : k' ≠ k) : GoMap.get? (GoMap.set m k v) k' = GoMap.get? m k' := by
  simp only [GoMap.set, GoMap.get?, if_neg h]
  induction m with
  | nil => simp [GoMap.get?]
  | cons p rest ih =>
    obtain ⟨k₁, v₁⟩ := p
    simp only [decide_not] at ih ⊢
    by_cases h1 : k₁ = k
    · have h2 : k' ≠ k₁ := by rw [h1]; exact h
      simp [List.filter, h1, GoMap.get?, h, ih]
    · by_cases h2 : k' = k₁
      · simp [List.filter, h1, GoMap.get?, h2]
      · simp [List.filter, h1, GoMap.get?, h2, ih]

theorem validateAuthorization_fst (g : Globals) (r : Request) :
    (validateAuthorization g r).1 = true ↔
      ∃ key : String, r.Header.Get "Authorization" = "Bearer " ++ key ∧
        key ∈ g.config.AllowedKeys := by
  unfold validateAuthorization
  by_cases hp : HasPrefix (r.Header.Get "Authorization") "Bearer " = true
  · obtain ⟨t, ht⟩ := (HasPrefix_iff _ _).1 hp
    simp only [hp, Bool.not_true, Bool.false_eq_true, if_false, List.any_eq_true,
      decide_eq_true_eq]
    rw [ht, TrimPrefix_append]
    constructor
    · rintro ⟨x, hx, rfl⟩
      exact ⟨_, rfl, hx⟩
    · rintro ⟨key, hk, hmem⟩
      have : t = key := by
        have := congrArg String.data hk
        simp only [String.data_append, List.append_cancel_left_eq] at this
        exact String.ext this
      exact ⟨key, hmem, this⟩
  · have hp' : HasPrefix (r.Header.Get "Authorization") "Bearer " = false := by
      simpa using hp
    simp only [hp', Bool.not_false, if_true, Bool.false_eq_true, false_iff]
    rintro ⟨key, hk, _⟩
    exact hp ((HasPrefix_iff _ _).2 ⟨key, hk⟩)

theorem validateAuthorization_snd (g : Globals) (r : Request) :
    (validateAuthorization g r).2 = g := by
  unfold validateAuthorization
  by_cases hp : HasPrefix (r.Header.Get "Authorization") "Bearer " = true
  · simp [hp, RWMutex.RLock, RWMutex.RUnlock]
  · simp [hp]

theorem getRedirectModel_snd (g : Globals) (m : String) :
    (getRedirectModel g m).2 = g := by
  unfold getRedirectModel
  cases hm : GoMap.get? g.config.ModelRedirects m <;> simp [hm, RWMutex.RLock, RWMutex.RUnlock]

theorem getRedirectModel_fst (g : Globals) (m : String) :
    (getRedirectModel g m).1 = (GoMap.get? g.config.ModelRedirects m).getD m := by
  unfold getRedirectModel
  cases hm : GoMap.get? g.config.ModelRedirects m <;> simp [hm]

theorem rlock_runlock (g : Globals) :
    ({ g with configLock := (RWMutex.RLock g.configLock).RUnlock } : Globals) = g := by
  simp [RWMutex.RLock, RWMutex.RUnlock]

theorem pipeline_g (env : Env) (g : Globals) (w : ResponseWriter) (r : Request) :
    (pipeline env g w r).g = countRequest g := by
  unfold pipeline
  simp only [validateAuthorization_snd, getRedirectModel_snd]
  repeat' split
  all_goals simp [RWMutex.RLock, RWMutex.RUnlock]

theorem wrapInt64_succ_pred (x : Int) (hlo : -9223372036854775808 ≤ x)
    (hhi : x < 9223372036854775808) : wrapInt64 (wrapInt64 (x + 1) + -1) = x := by
  unfold wrapInt64
  omega

theorem validateAuthorization_countRequest (g : Globals) (r : Request) :
    (validateAuthorization (countRequest g) r).1 = (validateAuthorization g r).1 := by
  have h1 := validateAuthorization_fst (countRequest g) r
  have h2 := validateAuthorization_fst g r
  have hcfg : (countRequest g).config = g.config := rfl
  rw [hcfg] at h1
  rw [Bool.eq_iff_iff, h1, h2]

/-! ## Lemmas on the response writer -/

theorem WriteHeader_fields (w : ResponseWriter) (c : Nat) :
    (w.WriteHeader c).writes = w.writes ∧ (w.WriteHeader c).connected = w.connected ∧
    (w.WriteHeader c).flusher = w.flusher ∧
    (w.WriteHeader c).bytesWritten = w.bytesWritten ∧
    (w.WriteHeader c).code = some (w.code.getD c) ∧
    (w.WriteHeader c).contentLength = w.declared := by
  cases hc : w.code with
  | some v => simp [ResponseWriter.WriteHeader, ResponseWriter.declared, hc]
  | none =>
    by_cases hcl : w.header.Get "Content-Length" = ""
    · simp [ResponseWriter.WriteHeader, ResponseWriter.declared, hc, hcl]
    · cases hp : parseContentLength (w.header.Get "Content-Length") <;>
        simp [ResponseWriter.WriteHeader, ResponseWriter.declared, hc, hcl, hp]

theorem WriteHeader_declared (w : ResponseWriter) (c : Nat) :
    (w.WriteHeader c).declared = w.declared := by
  obtain ⟨_, _, _, _, h5, h6⟩ := WriteHeader_fields w c
  simp only [ResponseWriter.declared, h5, h6]

theorem Write_fields (w : ResponseWriter) (p : Bytes) :
    (w.Write p).writes = w.writes ++ [(p, w.accepts p)] ∧
    (w.Write p).connected = w.connected ∧ (w.Write p).flusher = w.flusher ∧
    (w.Write p).code = some (w.code.getD 200) ∧ (w.Write p).declared = w.declared := by
  obtain ⟨h1, h2, h3, _, h5, h6⟩ := WriteHeader_fields w 200
  by_cases hb : bodyAllowedForStatus ((w.WriteHeader 200).code.getD 200) = true
  · refine ⟨?_, ?_, ?_, ?_, ?_⟩
    · simp only [ResponseWriter.Write, if_pos hb, h1]
    · simp only [ResponseWriter.Write, if_pos hb, h2]
    · simp only [ResponseWriter.Write, if_pos hb, h3]
    · simp only [ResponseWriter.Write, if_pos hb]
      exact h5
    · simp only [ResponseWriter.Write, if_pos hb]
      exact WriteHeader_declared w 200
  · refine ⟨?_, ?_, ?_, ?_, ?_⟩
    · simp only [ResponseWriter.Write, if_neg hb, h1]
    · simp only [ResponseWriter.Write, if_neg hb, h2]
    · simp only [ResponseWriter.Write, if_neg hb, h3]
    · simp only [ResponseWriter.Write, if_neg hb]
      exact h5
    · simp only [ResponseWriter.Write, if_neg hb]
      exact WriteHeader_declared w 200

theorem Flush_fields (w : ResponseWriter) :
    w.Flush.writes = w.writes ∧ w.Flush.connected = w.connected ∧
    w.Flush.flusher = w.flusher ∧ w.Flush.code = some (w.code.getD 200) ∧
    w.Flush.declared = w.declared := by
  obtain ⟨h1, h2, h3, _, h5, h6⟩ := WriteHeader_fields w 200
  refine ⟨?_, ?_, ?_, ?_, ?_⟩
  · simp only [ResponseWriter.Flush, h1]
  · simp only [ResponseWriter.Flush, h2]
  · simp only [ResponseWriter.Flush, h3]
  · simp only [ResponseWriter.Flush, h5]
  · simp only [ResponseWriter.Flush, ResponseWriter.declared, h5, h6]

theorem accepts_unbounded (w : ResponseWriter) (p : Bytes) (h : w.declared = none)
    (hb : bodyAllowedForStatus (w.code.getD 200) = true)
    (hp : p ≠ []) : w.accepts p = w.connected w.writes.length := by
  obtain ⟨h1, h2, _, _, h5, h6⟩ := WriteHeader_fields w 200
  have hb' : bodyAllowedForStatus ((w.WriteHeader 200).code.getD 200) = true := by
    rw [h5]
    exact hb
  simp only [ResponseWriter.accepts, if_neg hp, hb', Bool.not_true, Bool.false_eq_true,
    if_false, h6, h, h1, h2]

theorem accepts_empty (w : ResponseWriter) : w.accepts [] = true := by
  simp [ResponseWriter.accepts]

theorem Write_Flush_fields (w : ResponseWriter) (p : Bytes) :
    ((w.Write p).Flush).writes = w.writes ++ [(p, w.accepts p)] ∧
    ((w.Write p).Flush).connected = w.connected ∧
    ((w.Write p).Flush).flusher = w.flusher ∧
    ((w.Write p).Flush).code = some (w.code.getD 200) ∧
    ((w.Write p).Flush).declared = w.declared := by
  obtain ⟨h1, h2, h3, h4, h5⟩ := Write_fields w p
  obtain ⟨f1, f2, f3, f4, f5⟩ := Flush_fields (w.Write p)
  refine ⟨f1.trans h1, f2.trans h2, f3.trans h3, ?_, f5.trans h5⟩
  rw [f4, h4]
  rfl

theorem httpError_code (w : ResponseWriter) (msg : String) (c : Nat) (hw : w.code = none) :
    (httpError w msg c).code = some c := by
  unfold httpError
  rw [(Write_fields _ _).2.2.2.1, (WriteHeader_fields _ _).2.2.2.2.1]
  simp [hw]

theorem httpError_written (w : ResponseWriter) (msg : String) (c : Nat) :
    (httpError w msg c).written = w.written ++ [(msg ++ "\n").data] := by
  unfold httpError ResponseWriter.written
  rw [(Write_fields _ _).1, (WriteHeader_fields _ _).1]
  simp

theorem pipeline_methodNotAllowed (env : Env) (g : Globals) (w : ResponseWriter)
    (r : Request) (hm : r.Method ≠ "POST") :
    pipeline env g w r =
      { g := countRequest g, w := httpError w "Method not allowed" 405, built := none,
        sent := none, events := [], exit := Exit.methodNotAllowed } := by
  simp only [pipeline, if_pos hm]

theorem pipeline_unauthorized (env : Env) (g : Globals) (w : ResponseWriter)
    (r : Request) (hm : r.Method = "POST") (ha : (validateAuthorization g r).1 = false) :
    pipeline env g w r =
      { g := countRequest g, w := httpError w authFailedMessage 401, built := none,
        sent := none, events := [], exit := Exit.unauthorized } := by
  have hm' : ¬ r.Method ≠ "POST" := fun h => h hm
  simp only [pipeline, if_neg hm', validateAuthorization_countRequest, ha,
    validateAuthorization_snd, Bool.not_false, if_true]

/-! ## Lemmas on the streaming relay -/

theorem Read_fits (data : Bytes) (err : Option IOError) (rest : Body) (p : Bytes)
    (h : data.length ≤ p.length) :
    (Body.Read ((data, err) :: rest) p).n = data.length ∧
    (Body.Read ((data, err) :: rest) p).p.take (Body.Read ((data, err) :: rest) p).n = data ∧
    (Body.Read ((data, err) :: rest) p).p.length = p.length ∧
    (Body.Read ((data, err) :: rest) p).err = err := by
  have hmin : min data.length p.length = data.length := Nat.min_eq_left h
  have hp : (Body.Read ((data, err) :: rest) p).p = data ++ p.drop data.length := by
    simp only [Body.Read, hmin, List.take_length]
  have hn : (Body.Read ((data, err) :: rest) p).n = data.length := by
    simp only [Body.Read, hmin]
  refine ⟨hn, ?_, ?_, rfl⟩
  · rw [hp, hn, List.take_left']
    rfl
  · rw [hp, List.length_append, List.length_drop]
    omega

theorem relayLoop_cons (data : Bytes) (err : Option IOError) (rest : Body) (buffer : Bytes)
    (w : ResponseWriter) (h : data.length ≤ buffer.length) :
    relayLoop ((data, err) :: rest) buffer w =
      match err with
      | some e =>
        if data = [] then (w, [Event.read 0 (some e)])
        else ((w.Write data).Flush,
          [Event.read data.length (some e),
            Event.write data (w.accepts data), Event.flush])
      | none =>
        if data = [] then
          ((relayLoop rest (Body.Read ((data, none) :: rest) buffer).p w).1,
            Event.read 0 none ::
              (relayLoop rest (Body.Read ((data, none) :: rest) buffer).p w).2)
        else
          ((relayLoop rest (Body.Read ((data, none) :: rest) buffer).p
              (w.Write data).Flush).1,
            Event.read data.length none :: Event.write data (w.accepts data)
              :: Event.flush ::
              (relayLoop rest (Body.Read ((data, none) :: rest) buffer).p
                (w.Write data).Flush).2) := by
  obtain ⟨hn, htake, _, herr⟩ := Read_fits data err rest buffer h
  rw [hn] at htake
  have hpos : (0 < data.length) ↔ data ≠ [] := List.length_pos
  cases err with
  | some e =>
    by_cases hd : data = []
    · subst hd
      simp [relayLoop, Body.Read]
    · have hlen : 0 < data.length := hpos.2 hd
      simp only [relayLoop, herr, htake, hn, gt_iff_lt, if_pos hlen, if_neg hd]
  | none =>
    by_cases hd : data = []
    · subst hd
      simp [relayLoop, Body.Read]
    · have hlen : 0 < data.length := hpos.2 hd
      simp only [relayLoop, herr, htake, hn, gt_iff_lt, if_pos hlen, if_neg hd,
        List.cons_append, List.nil_append]

theorem streamHeader_declared (w : ResponseWriter) :
    ({ w with header := streamHeader w.header } : ResponseWriter).declared = w.declared := by
  have hget : (streamHeader w.header).Get "Content-Length" = w.header.Get "Content-Length" := by
    simp only [Header.Get, streamHeader, Header.Set]
    rw [GoMap.get?_set_other _ _ _ _ (by decide), GoMap.get?_set_other _ _ _ _ (by decide),
      GoMap.get?_set_other _ _ _ _ (by decide), GoMap.get?_set_other _ _ _ _ (by decide)]
  simp only [ResponseWriter.declared, hget]

theorem relayLoop_writes (body : Body) :
    ∀ (buffer : Bytes) (w : ResponseWriter),
      (∀ e ∈ body, e.1.length ≤ buffer.length) → (∀ k, w.connected k = true) →
      w.declared = none → bodyAllowedForStatus (w.code.getD 200) = true →
      (relayLoop body buffer w).1.writes
        = w.writes ++ (relayedChunks body).map (fun c => (c, true)) := by
  induction body with
  | nil =>
    intro buffer w _ _ _ _
    simp [relayLoop, relayedChunks]
  | cons entry rest ih =>
    intro buffer w hsize hconn hdecl hbody
    obtain ⟨data, err⟩ := entry
    have hd : data.length ≤ buffer.length := hsize (data, err) (List.mem_cons_self _ _)
    have hlen := (Read_fits data err rest buffer hd).2.2.1
    have hrest : ∀ e ∈ rest, e.1.length ≤ (Body.Read ((data, err) :: rest) buffer).p.length := by
      intro e he
      rw [hlen]
      exact hsize e (List.mem_cons_of_mem _ he)
    obtain ⟨hw1, hw2, _, hw4, hw5⟩ := Write_Flush_fields w data
    have hbody' : bodyAllowedForStatus (((w.Write data).Flush).code.getD 200) = true := by
      rw [hw4]
      exact hbody
    rw [relayLoop_cons data err rest buffer w hd]
    cases err with
    | some e =>
      by_cases hdata : data = []
      · simp [hdata, relayedChunks]
      · simp [hdata, relayedChunks, hw1, accepts_unbounded w data hdecl hbody hdata, hconn]
    | none =>
      by_cases hdata : data = []
      · simp only [hdata, if_true, relayedChunks]
        have := ih (Body.Read (([], none) :: rest) buffer).p w (by rw [← hdata]; exact hrest)
          hconn hdecl hbody
        exact this
      · simp only [hdata, if_false, relayedChunks]
        have := ih (Body.Read ((data, none) :: rest) buffer).p (w.Write data).Flush hrest
          (by intro k; rw [hw2]; exact hconn k) (hw5.trans hdecl) hbody'
        rw [this, hw1, accepts_unbounded w data hdecl hbody hdata, hconn]
        simp

/-- The events of the relay loop when every read fits the buffer and every
write succeeds: each read is followed at once by the write and the flush of
its bytes, if it has any, and the loop ends with the first read that reports
an error. -/
theorem relayLoop_events (body : Body) :
    ∀ (buffer : Bytes) (w : ResponseWriter),
      (∀ e ∈ body, e.1.length ≤ buffer.length) → (∀ k, w.connected k = true) →
      w.declared = none → bodyAllowedForStatus (w.code.getD 200) = true →
      (relayLoop body buffer w).2 = relayedEvents body := by
  induction body with
  | nil =>
    intro buffer w _ _ _ _
    simp [relayLoop, relayedEvents]
  | cons entry rest ih =>
    intro buffer w hsize hconn hdecl hbody
    obtain ⟨data, err⟩ := entry
    have hd : data.length ≤ buffer.length := hsize (data, err) (List.mem_cons_self _ _)
    have hlen := (Read_fits data err rest buffer hd).2.2.1
    have hrest : ∀ e ∈ rest, e.1.length ≤ (Body.Read ((data, err) :: rest) buffer).p.length := by
      intro e he
      rw [hlen]
      exact hsize e (List.mem_cons_of_mem _ he)
    obtain ⟨_, hw2, _, hw4, hw5⟩ := Write_Flush_fields w data
    have hbody' : bodyAllowedForStatus (((w.Write data).Flush).code.getD 200) = true := by
      rw [hw4]
      exact hbody
    rw [relayLoop_cons data err rest buffer w hd]
    cases err with
    | some e =>
      by_cases hdata : data = []
      · simp [hdata, relayedEvents, readEvents]
      · simp [hdata, relayedEvents, readEvents, accepts_unbounded w data hdecl hbody hdata, hconn]
    | none =>
      by_cases hdata : data = []
      · simp only [hdata, if_true, relayedEvents, readEvents]
        rw [ih (Body.Read (([], none) :: rest) buffer).p w (by rw [← hdata]; exact hrest)
          hconn hdecl hbody]
        simp
      · simp only [hdata, if_false, relayedEvents, readEvents]
        rw [ih (Body.Read ((data, none) :: rest) buffer).p (w.Write data).Flush hrest
          (by intro k; rw [hw2]; exact hconn k) (hw5.trans hdecl) hbody',
          accepts_unbounded w data hdecl hbody hdata, hconn]
        simp

theorem relayLoop_readOutcomes (body : Body) :
    ∀ (buffer : Bytes) (w : ResponseWriter),
      (relayLoop body buffer w).2.filterMap Event.readErr = readOutcomes body := by
  induction body with
  | nil =>
    intro buffer w
    simp [relayLoop, readOutcomes, Event.readErr]
  | cons entry rest ih =>
    intro buffer w
    obtain ⟨data, err⟩ := entry
    have herr : (Body.Read ((data, err) :: rest) buffer).err = err := rfl
    cases err with
    | some e =>
      by_cases hn : (Body.Read ((data, some e) :: rest) buffer).n > 0
      · simp [relayLoop, herr, hn, readOutcomes, Event.readErr]
      · simp [relayLoop, herr, hn, readOutcomes, Event.readErr]
    | none =>
      by_cases hn : (Body.Read ((data, none) :: rest) buffer).n > 0
      · simp [relayLoop, herr, hn, readOutcomes, Event.readErr, ih]
      · simp [relayLoop, herr, hn, readOutcomes, Event.readErr, ih]

theorem relayLoop_attempts (body : Body) :
    ∀ (buffer : Bytes) (w₁ w₂ : ResponseWriter),
      (relayLoop body buffer w₁).2.map Event.attempt
        = (relayLoop body buffer w₂).2.map Event.attempt := by
  induction body with
  | nil =>
    intro buffer w₁ w₂
    simp [relayLoop]
  | cons entry rest ih =>
    intro buffer w₁ w₂
    obtain ⟨data, err⟩ := entry
    have herr : (Body.Read ((data, err) :: rest) buffer).err = err := rfl
    cases err with
    | some e =>
      by_cases hn : (Body.Read ((data, some e) :: rest) buffer).n > 0
      · simp [relayLoop, herr, hn, Event.attempt]
      · simp [relayLoop, herr, hn, Event.attempt]
    | none =>
      by_cases hn : (Body.Read ((data, none) :: rest) buffer).n > 0
      · simp only [relayLoop, herr, hn, if_true, List.map_cons, List.map_append, Event.attempt,
          List.cons_append, List.nil_append, List.map_nil]
        rw [ih _ (w₁.Write _).Flush (w₂.Write _).Flush]
      · simp only [relayLoop, herr, hn, if_false, List.map_cons, List.map_append, Event.attempt,
          List.cons_append, List.nil_append, List.map_nil]
        rw [ih _ w₁ w₂]

theorem relayedChunks_eofBody (chunks : List Bytes) (last : Bytes) :
    relayedChunks (eofBody chunks last) = (chunks ++ [last]).filter (fun c => decide (c ≠ [])) := by
  induction chunks with
  | nil =>
    by_cases h : last = [] <;> simp [eofBody, relayedChunks, h]
  | cons c rest ih =>
    have ih' : relayedChunks (List.map (fun c => (c, none)) rest ++ [(last, some IOError.EOF)])
        = (rest ++ [last]).filter (fun c => decide (c ≠ [])) := ih
    by_cases h : c = []
    · simp [eofBody, relayedChunks, h, ih']
    · simp [eofBody, relayedChunks, h, ih', List.filter]

theorem relayedEvents_eofBody (chunks : List Bytes) (last : Bytes) :
    relayedEvents (eofBody chunks last)
      = (chunks.map (fun c => readEvents c none)).flatten
          ++ readEvents last (some IOError.EOF) := by
  induction chunks with
  | nil => simp [eofBody, relayedEvents]
  | cons c rest ih =>
    have ih' : relayedEvents (List.map (fun c => (c, none)) rest ++ [(last, some IOError.EOF)])
        = (rest.map (fun c => readEvents c none)).flatten
          ++ readEvents last (some IOError.EOF) := ih
    simp [eofBody, relayedEvents, ih']

theorem readOutcomes_eofBody (chunks : List Bytes) (last : Bytes) :
    readOutcomes (eofBody chunks last)
      = List.replicate chunks.length none ++ [some IOError.EOF] := by
  induction chunks with
  | nil => simp [eofBody, readOutcomes]
  | cons c rest ih =>
    have ih' : readOutcomes (List.map (fun c => (c, none)) rest ++ [(last, some IOError.EOF)])
        = List.replicate rest.length none ++ [some IOError.EOF] := ih
    simp [eofBody, readOutcomes, ih', List.replicate_succ]

theorem body_successful (cs : List Bytes) :
    ((List.filter (fun pw : Bytes × Bool => pw.2) (cs.map (fun c => (c, true)))).map
      Prod.fst).flatten = cs.flatten := by
  induction cs with
  | nil => rfl
  | cons c rest ih => simp [List.filter, ih]

theorem flatten_filter_nonempty (l : List Bytes) :
    (l.filter (fun c => decide (c ≠ []))).flatten = l.flatten := by
  induction l with
  | nil => rfl
  | cons c rest ih =>
    simp only [decide_not] at ih ⊢
    by_cases h : c = []
    · simp [List.filter, h, ih]
    · simp [List.filter, h, ih]

/-! ## Lemmas on the forwarding path -/

theorem getRedirectModel_countRequest (g : Globals) (m : String) :
    (getRedirectModel (countRequest g) m).1 = (getRedirectModel g m).1 := by
  rw [getRedirectModel_fst, getRedirectModel_fst]
  rfl

theorem pipeline_forwarded (env : Env) (g : Globals) (w : ResponseWriter) (r : Request)
    (chatReq : ChatRequest) (reqBody : Bytes) (req : UpstreamRequest) (resp : Response)
    (hm : r.Method = "POST") (ha : (validateAuthorization g r).1 = true)
    (hdec : env.DecodeChatRequest r.Body = Except.ok chatReq)
    (hmar : env.MarshalChatRequest
      { chatReq with Model := (getRedirectModel g chatReq.Model).1 } = Except.ok reqBody)
    (hreq : upstreamRequest env g.config.API.URL g.config.API.Key reqBody = Except.ok req)
    (hdo : env.Do req = Except.ok resp) :
    pipeline env g w r =
      if chatReq.Stream then
        { g := countRequest g, w := (handleStreamResponse w resp env.pooledBuffer).1,
          built := some req, sent := some req,
          events := (handleStreamResponse w resp env.pooledBuffer).2,
          exit := if w.flusher then Exit.streamed else Exit.streamUnsupported }
      else
        { g := countRequest g, w := handleNormalResponse env w resp chatReq.Model,
          built := some req, sent := some req, events := [],
          exit := if (ReadAll resp.Body).2.isSome then Exit.readFailed else Exit.relayed } := by
  have hm' : ¬ r.Method ≠ "POST" := fun h => h hm
  have hcfg : (countRequest g).config = g.config := rfl
  have hlock : ∀ g' : Globals,
      ({ g' with configLock := g'.configLock.RLock } : Globals).config = g'.config :=
    fun _ => rfl
  simp only [pipeline, if_neg hm', validateAuthorization_countRequest, ha,
    validateAuthorization_snd, getRedirectModel_snd, getRedirectModel_countRequest,
    Bool.not_true, Bool.false_eq_true, if_false, hdec, hmar, hlock, hcfg, hreq, hdo,
    rlock_runlock]
  cases chatReq.Stream <;> simp [countRequest, RWMutex.RLock, RWMutex.RUnlock]

theorem handleChatCompletions_streamed (env : Env) (g : Globals) (w : ResponseWriter)
    (r : Request) (chatReq : ChatRequest) (reqBody : Bytes) (req : UpstreamRequest)
    (resp : Response)
    (hm : r.Method = "POST") (ha : (validateAuthorization g r).1 = true)
    (hdec : env.DecodeChatRequest r.Body = Except.ok chatReq)
    (hst : chatReq.Stream = true)
    (hmar : env.MarshalChatRequest
      { chatReq with Model := (getRedirectModel g chatReq.Model).1 } = Except.ok reqBody)
    (hreq : upstreamRequest env g.config.API.URL g.config.API.Key reqBody = Except.ok req)
    (hdo : env.Do req = Except.ok resp) :
    (handleChatCompletions env g w r).w = (handleStreamResponse w resp env.pooledBuffer).1 ∧
    (handleChatCompletions env g w r).events
      = (handleStreamResponse w resp env.pooledBuffer).2 := by
  have ha' : (validateAuthorization (addActiveRequests g 1) r).1 = true := by
    rw [← ha]
    exact Bool.eq_iff_iff.2 ((validateAuthorization_fst _ r).trans
      (validateAuthorization_fst g r).symm)
  have hmar' : env.MarshalChatRequest
      { chatReq with Model := (getRedirectModel (addActiveRequests g 1) chatReq.Model).1 }
      = Except.ok reqBody := by
    rw [getRedirectModel_fst] at hmar ⊢
    exact hmar
  have hp := pipeline_forwarded env (addActiveRequests g 1) w r chatReq reqBody req resp hm
    ha' hdec hmar' hreq hdo
  rw [hst] at hp
  simp only [if_true] at hp
  constructor <;> simp only [handleChatCompletions, hp]

theorem copyHeader_fields (src : Header) :
    ∀ w : ResponseWriter, (copyHeader w src).code = w.code ∧
      (copyHeader w src).writes = w.writes ∧ (copyHeader w src).connected = w.connected := by
  have hinner : ∀ (k : String) (vs : List String) (w : ResponseWriter),
      (vs.foldl (fun w value => { w with header := w.header.Add k value }) w).code = w.code ∧
      (vs.foldl (fun w value => { w with header := w.header.Add k value }) w).writes
        = w.writes ∧
      (vs.foldl (fun w value => { w with header := w.header.Add k value }) w).connected
        = w.connected := by
    intro k vs
    induction vs with
    | nil => intro w; exact ⟨rfl, rfl, rfl⟩
    | cons v rest ih =>
      intro w
      simp only [List.foldl_cons]
      exact ih _
  induction src with
  | nil => intro w; exact ⟨rfl, rfl, rfl⟩
  | cons kv rest ih =>
    intro w
    obtain ⟨h1, h2, h3⟩ := hinner kv.1 kv.2 w
    obtain ⟨i1, i2, i3⟩ := ih (kv.2.foldl
      (fun w value => { w with header := w.header.Add kv.1 value }) w)
    simp only [copyHeader, List.foldl_cons] at i1 i2 i3 ⊢
    exact ⟨i1.trans h1, i2.trans h2, i3.trans h3⟩

theorem handleNormalResponse_relayed (env : Env) (w : ResponseWriter) (resp : Response)
    (originalModel : String) (body : Bytes) (hread : ReadAll resp.Body = (body, none))
    (hcode : w.code = none) (hwrites : w.writes = []) :
    (handleNormalResponse env w resp originalModel).code = some resp.StatusCode ∧
    (handleNormalResponse env w resp originalModel).written
      = [rewriteModel env resp originalModel body] := by
  obtain ⟨h1, h2, _⟩ := copyHeader_fields resp.Header w
  have hrun : handleNormalResponse env w resp originalModel
      = ((copyHeader w resp.Header).WriteHeader resp.StatusCode).Write
          (rewriteModel env resp originalModel body) := by
    simp only [handleNormalResponse, hread]
  rw [hrun]
  constructor
  · rw [(Write_fields _ _).2.2.2.1, (WriteHeader_fields _ _).2.2.2.2.1, h1, hcode]
    rfl
  · unfold ResponseWriter.written
    rw [(Write_fields _ _).1, (WriteHeader_fields _ _).1, h2, hwrites]
    rfl

theorem rewriteModel_restores (env : Env) (resp : Response) (originalModel : String)
    (body out : Bytes) (obj : GoMap JSONValue) (v : JSONValue)
    (hct : HasPrefix (resp.Header.Get "Content-Type") "application/json" = true)
    (hobj : env.UnmarshalObject body = Except.ok obj)
    (hkey : GoMap.get? obj "model" = some v)
    (hout : env.MarshalObject (GoMap.set obj "model" (JSONValue.string originalModel))
      = Except.ok out) :
    rewriteModel env resp originalModel body = out := by
  simp only [rewriteModel, hct, if_true, hobj, hkey, hout]

theorem upstreamRequest_ok (env : Env) (apiURL apiKey : String) (reqBody : Bytes)
    (req : UpstreamRequest) (h : upstreamRequest env apiURL apiKey reqBody = Except.ok req) :
    req.Method = "POST" ∧ req.URL = apiURL ∧ req.Body = reqBody ∧
      req.Header.Get "Authorization" = "Bearer " ++ apiKey := by
  unfold upstreamRequest NewRequest at h
  by_cases hv : env.validURL apiURL = true
  · simp only [hv, if_true] at h
    have h' := Except.ok.inj h
    subst h'
    refine ⟨rfl, rfl, rfl, ?_⟩
    simp [Header.Get, Header.Set, GoMap.set, GoMap.get?]
  · simp [hv] at h

theorem relayLoop_code (body : Body) :
    ∀ (buffer : Bytes) (w : ResponseWriter),
      (relayLoop body buffer w).1.code = w.code ∨
        (relayLoop body buffer w).1.code = some 200 := by
  have hstep : ∀ (w : ResponseWriter) (p : Bytes),
      ((w.Write p).Flush).code = w.code ∨ ((w.Write p).Flush).code = some 200 := by
    intro w p
    obtain ⟨_, _, _, h4, _⟩ := Write_Flush_fields w p
    rw [h4]
    cases hc : w.code <;> simp
  induction body with
  | nil =>
    intro buffer w
    exact Or.inl rfl
  | cons entry rest ih =>
    intro buffer w
    obtain ⟨data, err⟩ := entry
    have herr : (Body.Read ((data, err) :: rest) buffer).err = err := rfl
    cases err with
    | some e =>
      by_cases hn : (Body.Read ((data, some e) :: rest) buffer).n > 0
      · simp only [relayLoop, herr, hn, if_true]
        exact hstep _ _
      · left
        simp [relayLoop, herr, hn]
    | none =>
      by_cases hn : (Body.Read ((data, none) :: rest) buffer).n > 0
      · simp only [relayLoop, herr, hn, if_true]
        rcases ih (Body.Read ((data, none) :: rest) buffer).p
          ((w.Write (List.take (Body.Read ((data, none) :: rest) buffer).n
            (Body.Read ((data, none) :: rest) buffer).p)).Flush) with h | h
        · rcases hstep w (List.take (Body.Read ((data, none) :: rest) buffer).n
            (Body.Read ((data, none) :: rest) buffer).p) with h' | h'
          · exact Or.inl (h.trans h')
          · exact Or.inr (h.trans h')
        · exact Or.inr h
      · simp only [relayLoop, herr, hn, if_false]
        exact ih _ _

/-- The streaming relay never sends the upstream status: with a flusher, a
writer that has sent no status ends with no status sent or with 200. -/
theorem handleStreamResponse_code (w : ResponseWriter) (resp : Response) (buffer : Bytes)
    (hcode : w.code = none) (hfl : w.flusher = true) :
    (handleStreamResponse w resp buffer).1.code = none ∨
      (handleStreamResponse w resp buffer).1.code = some 200 := by
  have hrun : handleStreamResponse w resp buffer
      = relayLoop resp.Body buffer { w with header := streamHeader w.header } := by
    simp [handleStreamResponse, hfl]
  rw [hrun]
  rcases relayLoop_code resp.Body buffer { w with header := streamHeader w.header } with h | h
  · exact Or.inl (h.trans hcode)
  · exact Or.inr h

theorem bufferPoolNew_length : bufferPoolNew.length = 32768 := by
  rw [bufferPoolNew, List.length_replicate]

theorem envelope_head (message kind : String) (rest : String) :
    (envelope message kind ++ rest).data.head? = some (Char.ofNat 123) ∧
      (envelope message kind).data.head? = some (Char.ofNat 123) := by
  constructor <;> simp only [envelope, String.data_append] <;> rfl

theorem not_envelope_of_head (body : Bytes) (c : Char) (hc : body.head? = some c)
    (hne : c ≠ Char.ofNat 123) : ¬ IsErrorEnvelope body := by
  rintro ⟨message, kind, h | h⟩
  · rw [h, (envelope_head message kind "").2] at hc
    exact hne (Option.some.inj hc).symm
  · rw [h, (envelope_head message kind "\n").1] at hc
    exact hne (Option.some.inj hc).symm

/-! ## The failure exits that do write the envelope -/

theorem httpError_fresh (flusher : Bool) (connected : Nat → Bool) (msg : String) (c : Nat) :
    (httpError (ResponseWriter.fresh flusher connected) msg c).code = some c ∧
    (httpError (ResponseWriter.fresh flusher connected) msg c).written
      = [(msg ++ "\n").data] := by
  refine ⟨httpError_code _ _ _ rfl, ?_⟩
  rw [httpError_written]
  rfl

theorem messages_are_envelopes :
    authFailedMessage = envelope "Invalid or missing authorization key" "authentication_error" ∧
    decodeFailedMessage = envelope "Invalid request body" "invalid_request_error" ∧
    marshalFailedMessage = envelope "Failed to process request" "internal_error" ∧
    newRequestFailedMessage = envelope "Failed to create request" "internal_error" ∧
    upstreamFailedMessage = envelope "Upstream request failed" "upstream_error" ∧
    readFailedMessage = envelope "Failed to read response" "internal_error" := by
  decide

theorem httpError_envelope (flusher : Bool) (connected : Nat → Bool) (msg message kind : String)
    (c : Nat) (hmsg : msg = envelope message kind) (hc : c = 401 ∨ c = 400 ∨ c = 500) :
    ∃ (message kind : String) (c' : Nat),
      (httpError (ResponseWriter.fresh flusher connected) msg c).written
        = [(envelope message kind ++ "
").data] ∧
      (httpError (ResponseWriter.fresh flusher connected) msg c).code = some c' ∧
      (c' = 401 ∨ c' = 400 ∨ c' = 500) := by
  refine ⟨message, kind, c, ?_, (httpError_fresh _ _ _ _).1, hc⟩
  rw [← hmsg]
  exact (httpError_fresh _ _ _ _).2

/-- Six of the eight failure exits write, as their only write, an error
envelope followed by a newline, with status 401, 400 or 500. -/
theorem pipeline_envelope_exits (env : Env) (g : Globals) (flusher : Bool)
    (connected : Nat → Bool) (r : Request)
    (hexit : (pipeline env g (ResponseWriter.fresh flusher connected) r).exit ≠ Exit.methodNotAllowed ∧
      (pipeline env g (ResponseWriter.fresh flusher connected) r).exit ≠ Exit.streamUnsupported ∧
      (pipeline env g (ResponseWriter.fresh flusher connected) r).exit ≠ Exit.streamed ∧
      (pipeline env g (ResponseWriter.fresh flusher connected) r).exit ≠ Exit.relayed) :
    ∃ (message kind : String) (c : Nat),
      (pipeline env g (ResponseWriter.fresh flusher connected) r).w.written
        = [(envelope message kind ++ "\n").data] ∧
      (pipeline env g (ResponseWriter.fresh flusher connected) r).w.code = some c ∧
      (c = 401 ∨ c = 400 ∨ c = 500) := by
  obtain ⟨m1, m2, m3, m4, m5, m6⟩ := messages_are_envelopes
  by_cases hm : r.Method = "POST"
  swap
  · rw [pipeline_methodNotAllowed env g _ r hm] at hexit
    exact absurd rfl hexit.1
  cases ha : (validateAuthorization g r).1 with
  | false =>
    rw [pipeline_unauthorized env g _ r hm ha]
    exact httpError_envelope _ _ _ _ _ 401 m1 (Or.inl rfl)
  | true =>
    have hm' : ¬ r.Method ≠ "POST" := fun h => h hm
    have hcfg : (countRequest g).config = g.config := rfl
    have hlock : ∀ g' : Globals,
        ({ g' with configLock := g'.configLock.RLock } : Globals).config = g'.config :=
      fun _ => rfl
    cases hdec : env.DecodeChatRequest r.Body with
    | error e =>
      have hp : (pipeline env g (ResponseWriter.fresh flusher connected) r).w
          = httpError (ResponseWriter.fresh flusher connected) decodeFailedMessage 400 := by
        simp only [pipeline, if_neg hm', validateAuthorization_countRequest, ha,
          Bool.not_true, Bool.false_eq_true, if_false, hdec]
      rw [hp]
      exact httpError_envelope _ _ _ _ _ 400 m2 (Or.inr (Or.inl rfl))
    | ok chatReq =>
      cases hmar : env.MarshalChatRequest
          { chatReq with Model := (getRedirectModel g chatReq.Model).1 } with
      | error e =>
        have hp : (pipeline env g (ResponseWriter.fresh flusher connected) r).w
            = httpError (ResponseWriter.fresh flusher connected) marshalFailedMessage 500 := by
          simp only [pipeline, if_neg hm', validateAuthorization_countRequest, ha,
            validateAuthorization_snd, getRedirectModel_countRequest,
            Bool.not_true, Bool.false_eq_true, if_false, hdec, hmar]
        rw [hp]
        exact httpError_envelope _ _ _ _ _ 500 m3 (Or.inr (Or.inr rfl))
      | ok reqBody =>
        cases hreq : upstreamRequest env g.config.API.URL g.config.API.Key reqBody with
        | error e =>
          have hp : (pipeline env g (ResponseWriter.fresh flusher connected) r).w
              = httpError (ResponseWriter.fresh flusher connected)
                  newRequestFailedMessage 500 := by
            simp only [pipeline, if_neg hm', validateAuthorization_countRequest, ha,
              validateAuthorization_snd, getRedirectModel_snd, getRedirectModel_countRequest,
              Bool.not_true, Bool.false_eq_true, if_false, hdec, hmar, hlock, hcfg, hreq]
          rw [hp]
          exact httpError_envelope _ _ _ _ _ 500 m4 (Or.inr (Or.inr rfl))
        | ok req =>
          cases hdo : env.Do req with
          | error e =>
            have hp : (pipeline env g (ResponseWriter.fresh flusher connected) r).w
                = httpError (ResponseWriter.fresh flusher connected)
                    upstreamFailedMessage 500 := by
              simp only [pipeline, if_neg hm', validateAuthorization_countRequest, ha,
                validateAuthorization_snd, getRedirectModel_snd, getRedirectModel_countRequest,
                Bool.not_true, Bool.false_eq_true, if_false, hdec, hmar, hlock, hcfg, hreq,
                hdo]
            rw [hp]
            exact httpError_envelope _ _ _ _ _ 500 m5 (Or.inr (Or.inr rfl))
          | ok resp =>
            have hp := pipeline_forwarded env g (ResponseWriter.fresh flusher connected) r
              chatReq reqBody req resp hm ha hdec hmar hreq hdo
            rw [hp] at hexit ⊢
            cases hst : chatReq.Stream with
            | true =>
              rw [hst] at hexit
              simp only [if_true] at hexit
              cases flusher with
              | true => exact absurd rfl hexit.2.2.1
              | false => exact absurd rfl hexit.2.1
            | false =>
              rw [hst] at hexit
              simp only [Bool.false_eq_true, if_false] at hexit ⊢
              cases hread : ReadAll resp.Body with
              | mk body err =>
                cases err with
                | none =>
                  rw [hread] at hexit
                  exact absurd rfl hexit.2.2.2
                | some e =>
                  have hw : handleNormalResponse env (ResponseWriter.fresh flusher connected)
                      resp chatReq.Model
                      = httpError (ResponseWriter.fresh flusher connected)
                          readFailedMessage 500 := by
                    simp only [handleNormalResponse, hread]
                  rw [hw]
                  exact httpError_envelope _ _ _ _ _ 500 m6 (Or.inr (Or.inr rfl))

/-! ## Claims -/

/-- C1: `getRedirectModel m` returns the value the redirect table maps `m` to
when `m` is a key of the table (there is then such a value, bound to `m` in
the table), and returns `m` itself when `m` is not a key; the package-level
state is left as it was. -/
theorem getRedirectModel_lookup_or_identity (g : Globals) (m : String) :
    (∀ v, GoMap.get? g.config.ModelRedirects m = some v → (getRedirectModel g m).1 = v) ∧
    (m ∈ GoMap.keys g.config.ModelRedirects →
      ∃ v, GoMap.get? g.config.ModelRedirects m = some v ∧
        (m, v) ∈ g.config.ModelRedirects ∧ (getRedirectModel g m).1 = v) ∧
    (m ∉ GoMap.keys g.config.ModelRedirects → (getRedirectModel g m).1 = m) ∧
    (getRedirectModel g m).2 = g := by
  refine ⟨?_, ?_, ?_, getRedirectModel_snd g m⟩
  · intro v hv
    rw [getRedirectModel_fst, hv]
    rfl
  · intro hk
    obtain ⟨v, hv⟩ := (GoMap.get?_isSome_iff _ _).2 hk
    refine ⟨v, hv, GoMap.get?_mem _ _ _ hv, ?_⟩
    rw [getRedirectModel_fst, hv]
    rfl
  · intro hk
    have hnone : GoMap.get? g.config.ModelRedirects m = none := by
      cases hm : GoMap.get? g.config.ModelRedirects m with
      | none => rfl
      | some v => exact absurd ((GoMap.get?_isSome_iff _ _).1 ⟨v, hm⟩) hk
    rw [getRedirectModel_fst, hnone]
    rfl

/-- The scenario of C1: `gpt-a` is redirected to `gpt-b`, `gpt-4` is not
in the table and stays. -/
theorem getRedirectModel_lookup_or_identity_witness :
    (getRedirectModel scenarioGlobals "gpt-a").1 = "gpt-b" ∧
    (getRedirectModel scenarioGlobals "gpt-4").1 = "gpt-4" :=
  ⟨(getRedirectModel_lookup_or_identity scenarioGlobals "gpt-a").1 "gpt-b" (by decide),
    (getRedirectModel_lookup_or_identity scenarioGlobals "gpt-4").2.2.1 (by decide)⟩

/-- C2: `validateAuthorization` returns true exactly when the Authorization
header value (the empty string when the header is absent) is `"Bearer "`
followed by a string that is, as it stands, an element of `allowedKeys`; an
absent header gives false; the package-level state is left as it was. -/
theorem validateAuthorization_iff_bearer_member (g : Globals) (r : Request) :
    ((validateAuthorization g r).1 = true ↔
      ∃ key : String, r.Header.Get "Authorization" = "Bearer " ++ key ∧
        key ∈ g.config.AllowedKeys) ∧
    (GoMap.get? r.Header "Authorization" = none → (validateAuthorization g r).1 = false) ∧
    (validateAuthorization g r).2 = g := by
  refine ⟨validateAuthorization_fst g r, ?_, validateAuthorization_snd g r⟩
  intro habsent
  have hget : r.Header.Get "Authorization" = "" := by
    unfold Header.Get
    rw [habsent]
  unfold validateAuthorization
  rw [hget]
  rfl

/-- The scenario of C2: the key `k1` is accepted with the prefix as written. -/
theorem validateAuthorization_iff_bearer_member_witness :
    (validateAuthorization scenarioGlobals (scenarioRequest "POST" "k1" false)).1 = true :=
  (validateAuthorization_iff_bearer_member scenarioGlobals
    (scenarioRequest "POST" "k1" false)).1.2 ⟨"k1", by decide, by decide⟩

/-- C3: `loadConfig` returns no error exactly when the file is read, its
content parses and the parsed configuration has a non-empty API URL and a
non-empty API key; the active configuration is then the parsed one, and in
every other case an error is returned and the active configuration is the one
from before the call. -/
theorem loadConfig_replaces_iff_valid (env : Env) (g : Globals) :
    ((loadConfig env g).1 = none ↔
      ∃ data cfg,
        env.ReadFile (configPath env) = Except.ok data ∧
        env.UnmarshalConfig data = Except.ok cfg ∧ cfg.API.URL ≠ "" ∧ cfg.API.Key ≠ "") ∧
    (∀ data cfg,
        env.ReadFile (configPath env) = Except.ok data →
        env.UnmarshalConfig data = Except.ok cfg → cfg.API.URL ≠ "" → cfg.API.Key ≠ "" →
        (loadConfig env g).1 = none ∧ (loadConfig env g).2.config = cfg) ∧
    ((loadConfig env g).1 ≠ none → (loadConfig env g).2.config = g.config) := by
  cases hread : env.ReadFile (configPath env) with
  | error e =>
    have hval : loadConfig env g = (some ("failed to read config file: " ++ e), g) := by
      simp only [loadConfig, hread]
    rw [hval]
    refine ⟨⟨fun h => absurd h (by simp), ?_⟩, ?_, fun _ => rfl⟩
    · rintro ⟨d, c, hd, _⟩
      exact absurd hd (by simp)
    · intro d c hd
      exact absurd hd (by simp)
  | ok data =>
    cases hparse : env.UnmarshalConfig data with
    | error e =>
      have hval : loadConfig env g = (some ("failed to parse config: " ++ e),
          { g with configLock := g.configLock.Lock.Unlock }) := by
        simp only [loadConfig, hread, hparse]
      rw [hval]
      refine ⟨⟨fun h => absurd h (by simp), ?_⟩, ?_, fun _ => rfl⟩
      · rintro ⟨d, c, hd, hc, _⟩
        rw [← Except.ok.inj hd, hparse] at hc
        exact absurd hc (by simp)
      · intro d c hd hc
        rw [← Except.ok.inj hd, hparse] at hc
        exact absurd hc (by simp)
    | ok cfg =>
      have huniq : ∀ (d : Bytes) (c : Config), Except.ok (ε := String) data = Except.ok d →
          env.UnmarshalConfig d = Except.ok c → c = cfg := by
        intro d c hd hc
        rw [← Except.ok.inj hd, hparse] at hc
        exact (Except.ok.inj hc).symm
      by_cases hbad : cfg.API.URL = "" ∨ cfg.API.Key = ""
      · have hval : loadConfig env g = (some "missing required API configuration",
            { g with configLock := g.configLock.Lock.Unlock }) := by
          simp only [loadConfig, hread, hparse, if_pos hbad]
        rw [hval]
        refine ⟨⟨fun h => absurd h (by simp), ?_⟩, ?_, fun _ => rfl⟩
        · rintro ⟨d, c, hd, hc, hu, hk⟩
          rw [huniq d c hd hc] at hu hk
          exact absurd hbad (not_or.2 ⟨hu, hk⟩)
        · intro d c hd hc hu hk
          rw [huniq d c hd hc] at hu hk
          exact absurd hbad (not_or.2 ⟨hu, hk⟩)
      · have hval : loadConfig env g = (none,
            { g with config := cfg, configLock := g.configLock.Lock.Unlock }) := by
          simp only [loadConfig, hread, hparse, if_neg hbad]
        rw [hval]
        refine ⟨⟨fun _ => ⟨data, cfg, rfl, hparse, (not_or.1 hbad).1, (not_or.1 hbad).2⟩,
          fun _ => rfl⟩, ?_, fun h => absurd rfl h⟩
        intro d c hd hc _ _
        exact ⟨rfl, (huniq d c hd hc).symm⟩

/-- The scenario of C3: the configuration file of the scenario is adopted. -/
theorem loadConfig_replaces_iff_valid_witness :
    (loadConfig (scenarioEnv (Except.error "unused")) scenarioGlobals).1 = none ∧
    (loadConfig (scenarioEnv (Except.error "unused")) scenarioGlobals).2.config
      = { ModelRedirects := [], API := scenarioConfig.API, AllowedKeys := [] } :=
  (loadConfig_replaces_iff_valid (scenarioEnv (Except.error "unused")) scenarioGlobals).2.1
    scenarioConfigFile { ModelRedirects := [], API := scenarioConfig.API, AllowedKeys := [] }
    (by rfl) (by rfl) (by decide) (by decide)

/-- C7: for a counter value in the `int64` range, the pipeline body runs with
`activeRequests` one higher (wrapped) and leaves it there, and when
`handleChatCompletions` returns, by whichever exit, `activeRequests` has the
value it had before the call. -/
theorem handleChatCompletions_activeRequests_restored (env : Env) (g : Globals)
    (w : ResponseWriter) (r : Request)
    (hlo : -9223372036854775808 ≤ g.activeRequests)
    (hhi : g.activeRequests < 9223372036854775808) :
    (addActiveRequests g 1).activeRequests = wrapInt64 (g.activeRequests + 1) ∧
    (pipeline env (addActiveRequests g 1) w r).g.activeRequests
      = wrapInt64 (g.activeRequests + 1) ∧
    (handleChatCompletions env g w r).g.activeRequests = g.activeRequests := by
  refine ⟨rfl, ?_, ?_⟩
  · rw [pipeline_g]
    rfl
  · simp only [handleChatCompletions, addActiveRequests, pipeline_g, countRequest]
    exact wrapInt64_succ_pred g.activeRequests hlo hhi

/-- Witness of C7: the largest `int64` value, on the unauthorised exit. -/
theorem handleChatCompletions_activeRequests_restored_witness :
    (handleChatCompletions (scenarioEnv (Except.error "unreachable"))
        { scenarioGlobals with activeRequests := 9223372036854775807 }
        (ResponseWriter.fresh true (fun _ => true))
        (scenarioRequest "POST" "wrong" false)).g.activeRequests = 9223372036854775807 :=
  (handleChatCompletions_activeRequests_restored (scenarioEnv (Except.error "unreachable"))
    { scenarioGlobals with activeRequests := 9223372036854775807 }
    (ResponseWriter.fresh true (fun _ => true)) (scenarioRequest "POST" "wrong" false)
    (by decide) (by decide)).2.2

/-- C8: an upstream body delivered in reads of at most the buffer size, the
last one signalling end-of-stream (with or without data), to a writer that
can flush and whose writes succeed (the caller stays connected, no
`Content-Length` limits the body and the status allows one): the relay's
events are, read by read, the read followed at once by the write of exactly
the bytes of that read and a flush (nothing for a read without bytes), so no
write waits for a later read or carries bytes of another one; hence each
`Write` carries the bytes of one non-empty read, in read order, the bytes
that reach the caller are the concatenation of the bytes read, and exactly
those reads are performed. -/
theorem handleStreamResponse_byte_exact (w : ResponseWriter) (status : Nat) (hdr : Header)
    (chunks : List Bytes) (last : Bytes) (buffer : Bytes)
    (hfl : w.flusher = true) (hconn : ∀ k, w.connected k = true)
    (hdecl : w.declared = none) (hbody : bodyAllowedForStatus (w.code.getD 200) = true)
    (hsize : ∀ c ∈ chunks ++ [last], c.length ≤ buffer.length) :
    (handleStreamResponse w
        { StatusCode := status, Header := hdr, Body := eofBody chunks last } buffer).2
      = (chunks.map (fun c => readEvents c none)).flatten
          ++ readEvents last (some IOError.EOF) ∧
    (handleStreamResponse w
        { StatusCode := status, Header := hdr, Body := eofBody chunks last } buffer).1.written
      = w.written ++ (chunks ++ [last]).filter (fun c => decide (c ≠ [])) ∧
    (handleStreamResponse w
        { StatusCode := status, Header := hdr, Body := eofBody chunks last } buffer).1.body
      = w.body ++ (chunks ++ [last]).flatten ∧
    (handleStreamResponse w
        { StatusCode := status, Header := hdr, Body := eofBody chunks last }
        buffer).2.filterMap Event.readErr
      = List.replicate chunks.length none ++ [some IOError.EOF] := by
  have hsize' : ∀ e ∈ eofBody chunks last, e.1.length ≤ buffer.length := by
    intro e he
    simp only [eofBody, List.mem_append, List.mem_map, List.mem_singleton] at he
    rcases he with ⟨c, hc, rfl⟩ | rfl
    · exact hsize c (List.mem_append_left _ hc)
    · exact hsize last (List.mem_append_right _ (List.mem_singleton_self _))
  have hrun : ∀ w' : ResponseWriter, w'.flusher = true →
      handleStreamResponse w'
        { StatusCode := status, Header := hdr, Body := eofBody chunks last } buffer
      = relayLoop (eofBody chunks last) buffer
          { w' with header := streamHeader w'.header } := by
    intro w' hw'
    simp [handleStreamResponse, hw']
  rw [hrun w hfl]
  have hdecl' : ({ w with header := streamHeader w.header } : ResponseWriter).declared
      = none := (streamHeader_declared w).trans hdecl
  have hwrites := relayLoop_writes (eofBody chunks last) buffer
    { w with header := streamHeader w.header } hsize' hconn hdecl' hbody
  have hevents := relayLoop_events (eofBody chunks last) buffer
    { w with header := streamHeader w.header } hsize' hconn hdecl' hbody
  rw [relayedChunks_eofBody] at hwrites
  rw [relayedEvents_eofBody] at hevents
  refine ⟨hevents, ?_, ?_, ?_⟩
  · simp only [ResponseWriter.written, hwrites, List.map_append, List.map_map]
    congr 1
    exact List.map_id _
  · simp only [ResponseWriter.body, hwrites]
    rw [List.filter_append, List.map_append, List.flatten_append, body_successful,
      flatten_filter_nonempty]
  · rw [relayLoop_readOutcomes, readOutcomes_eofBody]

/-- The redirect on the forwarding path, up to the hand-over to the writer:
with the pair `A ↦ B` in the redirect table, an authorised non-streaming POST
request that names model `A` is sent upstream with the encoding of the
request whose model is `B`; when the upstream answer is read in full, has a
JSON content type and decodes to an object with a `model` key, the handler
sends the upstream status and hands to `Write`, in one call, the encoding of
that object with `model` set to `A`. Whether that write is accepted is not
part of this statement. -/
theorem handleChatCompletions_redirect_handed_over (env : Env) (g : Globals)
    (flusher : Bool) (connected : Nat → Bool) (r : Request) (chatReq : ChatRequest)
    (A B : String) (reqBody : Bytes) (req : UpstreamRequest) (resp : Response)
    (body out : Bytes) (obj : GoMap JSONValue) (v : JSONValue)
    (hm : r.Method = "POST")
    (hauth : ∃ key : String, r.Header.Get "Authorization" = "Bearer " ++ key ∧
      key ∈ g.config.AllowedKeys)
    (hdec : env.DecodeChatRequest r.Body = Except.ok chatReq)
    (hA : chatReq.Model = A) (hns : chatReq.Stream = false)
    (hpair : GoMap.get? g.config.ModelRedirects A = some B)
    (hmar : env.MarshalChatRequest { chatReq with Model := B } = Except.ok reqBody)
    (hreq : upstreamRequest env g.config.API.URL g.config.API.Key reqBody = Except.ok req)
    (hdo : env.Do req = Except.ok resp)
    (hread : ReadAll resp.Body = (body, none))
    (hct : HasPrefix (resp.Header.Get "Content-Type") "application/json" = true)
    (hobj : env.UnmarshalObject body = Except.ok obj)
    (hkey : GoMap.get? obj "model" = some v)
    (hout : env.MarshalObject (GoMap.set obj "model" (JSONValue.string A)) = Except.ok out) :
    (handleChatCompletions env g (ResponseWriter.fresh flusher connected) r).sent = some req ∧
    env.MarshalChatRequest { chatReq with Model := B } = Except.ok req.Body ∧
    (handleChatCompletions env g (ResponseWriter.fresh flusher connected) r).w.code
      = some resp.StatusCode ∧
    (handleChatCompletions env g (ResponseWriter.fresh flusher connected) r).w.written
      = [out] := by
  have ha : (validateAuthorization (addActiveRequests g 1) r).1 = true :=
    (validateAuthorization_fst (addActiveRequests g 1) r).2 hauth
  have hredirect : (getRedirectModel (addActiveRequests g 1) chatReq.Model).1 = B := by
    rw [getRedirectModel_fst, hA]
    exact congrArg (fun o => Option.getD o A) hpair
  have hmar' : env.MarshalChatRequest
      { chatReq with Model := (getRedirectModel (addActiveRequests g 1) chatReq.Model).1 }
      = Except.ok reqBody := by
    rw [hredirect]
    exact hmar
  have hp := pipeline_forwarded env (addActiveRequests g 1)
    (ResponseWriter.fresh flusher connected) r chatReq reqBody req resp hm ha hdec hmar'
    hreq hdo
  rw [hns] at hp
  simp only [Bool.false_eq_true, if_false] at hp
  have hw : (handleChatCompletions env g (ResponseWriter.fresh flusher connected) r).w
      = handleNormalResponse env (ResponseWriter.fresh flusher connected) resp A := by
    simp only [handleChatCompletions, hp, hA]
  have hs : (handleChatCompletions env g (ResponseWriter.fresh flusher connected) r).sent
      = some req := by
    simp only [handleChatCompletions, hp]
  obtain ⟨hc, hwr⟩ := handleNormalResponse_relayed env
    (ResponseWriter.fresh flusher connected) resp A body hread rfl rfl
  rw [rewriteModel_restores env resp A body out obj v hct hobj hkey hout] at hwr
  refine ⟨hs, ?_, ?_, ?_⟩
  · rw [(upstreamRequest_ok env _ _ reqBody req hreq).2.2.1]
    exact hmar
  · rw [hw]
    exact hc
  · rw [hw]
    exact hwr

/-- C4, the code at the failing input: redirect `gpt-alpha ↦ gpt-b`, an
authorised non-streaming request naming `gpt-alpha`, and an upstream answer
with `Content-Length: 30` and the 30-byte JSON object naming `gpt-b`. The
request goes upstream naming `gpt-b`. The handler copies `Content-Length: 30`
to the caller, sends status 200 and hands the 34-byte re-encoded object
naming `gpt-alpha` to `Write`, in one call; that exceeds the declared length,
so the write fails although the caller is connected, and no byte of the body
reaches the caller. -/
theorem handleChatCompletions_stale_content_length :
    scenarioUpstreamBody.length = 30 ∧
    ((handleChatCompletions (aliasEnv (Except.ok sizedResponse)) aliasGlobals
        (ResponseWriter.fresh true (fun _ => true)) aliasRequest).sent.map
          (fun req => req.Body))
      = some (scenarioMarshal { aliasChat with Model := "gpt-b" }) ∧
    (handleChatCompletions (aliasEnv (Except.ok sizedResponse)) aliasGlobals
        (ResponseWriter.fresh true (fun _ => true)) aliasRequest).w.code = some 200 ∧
    (handleChatCompletions (aliasEnv (Except.ok sizedResponse)) aliasGlobals
        (ResponseWriter.fresh true (fun _ => true)) aliasRequest).w.header.Get
          "Content-Length" = "30" ∧
    (handleChatCompletions (aliasEnv (Except.ok sizedResponse)) aliasGlobals
        (ResponseWriter.fresh true (fun _ => true)) aliasRequest).w.contentLength
      = some 30 ∧
    (handleChatCompletions (aliasEnv (Except.ok sizedResponse)) aliasGlobals
        (ResponseWriter.fresh true (fun _ => true)) aliasRequest).w.writes
      = [("\x7b\"choices\":[],\"model\":\"gpt-alpha\"\x7d".data, false)] ∧
    ("\x7b\"choices\":[],\"model\":\"gpt-alpha\"\x7d".data).length = 34 ∧
    (handleChatCompletions (aliasEnv (Except.ok sizedResponse)) aliasGlobals
        (ResponseWriter.fresh true (fun _ => true)) aliasRequest).w.body = [] := by
  refine ⟨by rfl, by rfl, by rfl, by rfl, by rfl, by rfl, by rfl, by rfl⟩

/-- Witness of C8: four reads (`da`, nothing, `ta`, then `!` with EOF) into
the 32 KiB pool buffer. -/
theorem handleStreamResponse_byte_exact_witness :
    (handleStreamResponse (ResponseWriter.fresh true (fun _ => true))
        { StatusCode := 200, Header := [],
          Body := eofBody ["da".data, [], "ta".data] "!".data } bufferPoolNew).2
      = [Event.read 2 none, Event.write "da".data true, Event.flush,
          Event.read 0 none,
          Event.read 2 none, Event.write "ta".data true, Event.flush,
          Event.read 1 (some IOError.EOF), Event.write "!".data true, Event.flush] ∧
    (handleStreamResponse (ResponseWriter.fresh true (fun _ => true))
        { StatusCode := 200, Header := [],
          Body := eofBody ["da".data, [], "ta".data] "!".data } bufferPoolNew).1.written
      = ["da".data, "ta".data, "!".data] ∧
    (handleStreamResponse (ResponseWriter.fresh true (fun _ => true))
        { StatusCode := 200, Header := [],
          Body := eofBody ["da".data, [], "ta".data] "!".data } bufferPoolNew).1.body
      = "data!".data :=
  have h := handleStreamResponse_byte_exact (ResponseWriter.fresh true (fun _ => true)) 200 []
    ["da".data, [], "ta".data] "!".data bufferPoolNew rfl (fun _ => rfl) rfl rfl
    (by
      intro c hc
      rw [bufferPoolNew_length]
      simp only [List.cons_append, List.nil_append, List.mem_cons, List.mem_singleton,
        List.not_mem_nil, or_false] at hc
      rcases hc with rfl | rfl | rfl | rfl <;> decide)
  ⟨h.1, h.2.1, h.2.2.1⟩

/-- Counterexample to C10 as stated: two reads, `a` and then `b` with EOF, to
a caller whose every write fails; after the failed write of `a` the relay
reads again and writes `b`. -/
theorem handleStreamResponse_continues_after_failed_write :
    (handleStreamResponse (ResponseWriter.fresh true (fun _ => false))
        (scenarioResponse 200 [("a".data, none), ("b".data, some IOError.EOF)])
        bufferPoolNew).2
      = [Event.read 1 none, Event.write "a".data false, Event.flush,
          Event.read 1 (some IOError.EOF), Event.write "b".data false, Event.flush] ∧
    stopsAfterFailedWrite
      (handleStreamResponse (ResponseWriter.fresh true (fun _ => false))
        (scenarioResponse 200 [("a".data, none), ("b".data, some IOError.EOF)])
        bufferPoolNew).2 = false := by
  have hlen : ∀ p : Bytes,
      p.length = 32768 → (Body.Read (("a".data, none) :: [("b".data, some IOError.EOF)]) p).p.length
        = 32768 := by
    intro p hp
    have h := (Read_fits "a".data none [("b".data, some IOError.EOF)] p
      (by rw [hp]; decide)).2.2.1
    rw [h, hp]
  have hev : (handleStreamResponse (ResponseWriter.fresh true (fun _ => false))
        (scenarioResponse 200 [("a".data, none), ("b".data, some IOError.EOF)])
        bufferPoolNew).2
      = [Event.read 1 none, Event.write "a".data false, Event.flush,
          Event.read 1 (some IOError.EOF), Event.write "b".data false, Event.flush] := by
    simp only [handleStreamResponse, scenarioResponse, ResponseWriter.fresh, Bool.not_true,
      Bool.false_eq_true, if_false]
    rw [relayLoop_cons "a".data none _ bufferPoolNew _ (by rw [bufferPoolNew_length]; decide)]
    simp only [show ¬ ("a".data = []) from by decide, if_false]
    rw [relayLoop_cons "b".data (some IOError.EOF) [] _ _
      (by rw [hlen bufferPoolNew bufferPoolNew_length]; decide)]
    simp only [show ¬ ("b".data = []) from by decide, if_false]
    rfl
  refine ⟨hev, ?_⟩
  rw [hev]
  decide

/-- C10, amended: a failed write does not stop the streaming relay. Whatever
the outcomes of the writes, the relay performs the reads and attempts the
writes and flushes it performs when every write succeeds; its reads return
`nil` until the first one that reports `io.EOF` or another error, and that
read is the last. -/
theorem handleStreamResponse_write_outcome_ignored (w : ResponseWriter) (resp : Response)
    (buffer : Bytes) (connected : Nat → Bool) (hfl : w.flusher = true) :
    (handleStreamResponse { w with connected := connected } resp buffer).2.map Event.attempt
      = (handleStreamResponse { w with connected := fun _ => true } resp buffer).2.map
          Event.attempt ∧
    (handleStreamResponse { w with connected := connected } resp buffer).2.filterMap
        Event.readErr
      = readOutcomes resp.Body := by
  have hrun : ∀ c : Nat → Bool,
      handleStreamResponse { w with connected := c } resp buffer
        = relayLoop resp.Body buffer
            { w with connected := c, header := streamHeader w.header } := by
    intro c
    simp [handleStreamResponse, hfl]
  rw [hrun connected, hrun (fun _ => true)]
  exact ⟨relayLoop_attempts _ _ _ _, relayLoop_readOutcomes _ _ _⟩

/-- Witness of C10, amended: the two reads of the counterexample are both
performed when every write fails. -/
theorem handleStreamResponse_write_outcome_ignored_witness :
    (handleStreamResponse
        { ResponseWriter.fresh true (fun _ => true) with connected := fun _ => false }
        (scenarioResponse 200 [("a".data, none), ("b".data, some IOError.EOF)])
        bufferPoolNew).2.filterMap Event.readErr
      = [none, some IOError.EOF] :=
  (handleStreamResponse_write_outcome_ignored (ResponseWriter.fresh true (fun _ => true))
    (scenarioResponse 200 [("a".data, none), ("b".data, some IOError.EOF)]) bufferPoolNew
    (fun _ => false) rfl).2

/-- C6, the code at the failing inputs: a GET request is answered 405 with the
plain text `Method not allowed`, and an authorised streaming request to a
writer that cannot flush is answered 500 with the plain text
`Streaming unsupported`; neither body is an error envelope. -/
theorem handleChatCompletions_plain_text_exits :
    (handleChatCompletions (scenarioEnv (Except.error "unreachable")) scenarioGlobals
        (ResponseWriter.fresh true (fun _ => true)) (scenarioRequest "GET" "k1" false)).w.code
      = some 405 ∧
    (handleChatCompletions (scenarioEnv (Except.error "unreachable")) scenarioGlobals
        (ResponseWriter.fresh true (fun _ => true))
        (scenarioRequest "GET" "k1" false)).w.written
      = ["Method not allowed\n".data] ∧
    ¬ IsErrorEnvelope "Method not allowed\n".data ∧
    (handleChatCompletions
        (scenarioEnv (Except.ok (scenarioResponse 200
          [(scenarioUpstreamBody, some IOError.EOF)])))
        scenarioGlobals (ResponseWriter.fresh false (fun _ => true))
        (scenarioRequest "POST" "k1" true)).w.code
      = some 500 ∧
    (handleChatCompletions
        (scenarioEnv (Except.ok (scenarioResponse 200
          [(scenarioUpstreamBody, some IOError.EOF)])))
        scenarioGlobals (ResponseWriter.fresh false (fun _ => true))
        (scenarioRequest "POST" "k1" true)).w.written
      = ["Streaming unsupported\n".data] ∧
    ¬ IsErrorEnvelope "Streaming unsupported\n".data := by
  refine ⟨by rfl, by rfl, ?_, by rfl, by rfl, ?_⟩
  · exact not_envelope_of_head _ (Char.ofNat 77) rfl (by decide)
  · exact not_envelope_of_head _ (Char.ofNat 83) rfl (by decide)

/-- C9, the code at the failing input: the upstream answers an authorised
request with status 500 and a body. With `stream` true the caller is sent
status 200 and the body; with `stream` false the caller is sent status 500. -/
theorem handleChatCompletions_stream_status_not_relayed :
    (handleChatCompletions
        (scenarioEnv (Except.ok (scenarioResponse 500
          [(scenarioUpstreamBody, some IOError.EOF)])))
        scenarioGlobals (ResponseWriter.fresh true (fun _ => true))
        (scenarioRequest "POST" "k1" true)).w.code
      = some 200 ∧
    (handleChatCompletions
        (scenarioEnv (Except.ok (scenarioResponse 500
          [(scenarioUpstreamBody, some IOError.EOF)])))
        scenarioGlobals (ResponseWriter.fresh true (fun _ => true))
        (scenarioRequest "POST" "k1" true)).w.written
      = [scenarioUpstreamBody] ∧
    (handleChatCompletions
        (scenarioEnv (Except.ok (scenarioResponse 500
          [(scenarioUpstreamBody, some IOError.EOF)])))
        scenarioGlobals (ResponseWriter.fresh true (fun _ => true))
        (scenarioRequest "POST" "k1" false)).w.code
      = some 500 := by
  have hstream : handleStreamResponse (ResponseWriter.fresh true (fun _ => true))
      (scenarioResponse 500 [(scenarioUpstreamBody, some IOError.EOF)]) bufferPoolNew
      = (({ ResponseWriter.fresh true (fun _ => true) with
            header := streamHeader [] }.Write scenarioUpstreamBody).Flush,
          [Event.read scenarioUpstreamBody.length (some IOError.EOF),
            Event.write scenarioUpstreamBody true, Event.flush]) := by
    simp only [handleStreamResponse, scenarioResponse, ResponseWriter.fresh, Bool.not_true,
      Bool.false_eq_true, if_false]
    rw [relayLoop_cons scenarioUpstreamBody (some IOError.EOF) [] bufferPoolNew _
      (by rw [bufferPoolNew_length]; decide)]
    simp only [show ¬ (scenarioUpstreamBody = []) from by decide, if_false]
    rfl
  have hw := (handleChatCompletions_streamed
    (scenarioEnv (Except.ok (scenarioResponse 500 [(scenarioUpstreamBody, some IOError.EOF)])))
    scenarioGlobals (ResponseWriter.fresh true (fun _ => true))
    (scenarioRequest "POST" "k1" true) (scenarioChat true)
    (scenarioMarshal { scenarioChat true with Model := "gpt-b" })
    { Method := "POST", URL := "https://upstream.example/v1/chat/completions",
      Header := [("Accept", ["application/json"]), ("Content-Type", ["application/json"]),
        ("Authorization", ["Bearer sk-upstream"])],
      Body := scenarioMarshal { scenarioChat true with Model := "gpt-b" } }
    (scenarioResponse 500 [(scenarioUpstreamBody, some IOError.EOF)])
    rfl (by rfl) (by rfl) rfl (by rfl) (by rfl) (by rfl)).1
  rw [show (scenarioEnv (Except.ok (scenarioResponse 500
    [(scenarioUpstreamBody, some IOError.EOF)]))).pooledBuffer = bufferPoolNew from rfl,
    hstream] at hw
  refine ⟨?_, ?_, by rfl⟩
  · rw [hw]
    rfl
  · rw [hw]
    rfl

end ApiProxy
